import Mathlib

/-!
# Verification of the Blender cache-ingestion pipeline

Shallow embedding of `programs/pipeline _old.py`, `programs/presigned_uploader.py`
and `programs/cache_streamer.py`, together with proofs of the specification's
claims about them.  Components that live in modules absent from the repository
snapshot (`progress.py`, `compression.py`) are modelled from the specification
and marked as such in their doc comments.
-/

set_option maxRecDepth 4000

namespace CachePipeline

/- ============================================================
   Frame Codec (`pipeline _old.py`, `FRAME_PATTERNS` / `extract_frame_number`)
   ============================================================ -/

/-- `\d` character class of the source regexes (ASCII digits). -/
def isDigitCh (c : Char) : Bool :=
  48 ≤ c.toNat && c.toNat ≤ 57

/-- `\w` character class of the source regexes (ASCII word characters). -/
def isWordCh (c : Char) : Bool :=
  isDigitCh c || (65 ≤ c.toNat && c.toNat ≤ 90) || (97 ≤ c.toNat && c.toNat ≤ 122)
    || c = '_'

/-- A token of the part of a frame pattern that follows the capture group:
a literal character, a `\d+` run, or a `\w+` run. -/
inductive PostTok where
  | lit (c : Char)
  | digitsPlus
  | wordPlus
deriving DecidableEq

/-- One entry of `FRAME_PATTERNS`.  Every pattern of the source has the shape
`LITERALS (\d{gmin,gmax}) POST $`: a literal stretch, a captured digit run with
bounded (or, for the generic fallback, unbounded) greedy repetition, then a
suffix of literals and `\d+` / `\w+` runs, anchored at the end of the name. -/
structure FramePattern where
  lead : List Char
  gmin : Nat
  gmax : Option Nat
  post : List PostTok

/-- Match the post-group part of a pattern against the rest of the name,
anchored at the end (the `$` of every source pattern).  Greedy runs are
resolved by backtracking over the split point, which for a boolean result is
an existential over the run length. -/
def matchPost : List PostTok → List Char → Bool
  | [], [] => true
  | [], _ :: _ => false
  | .lit _ :: _, [] => false
  | .lit c :: ts, x :: xs => x = c && matchPost ts xs
  | .digitsPlus :: ts, xs =>
      (List.range (xs.takeWhile isDigitCh).length).any
        (fun j => matchPost ts (xs.drop (j + 1)))
  | .wordPlus :: ts, xs =>
      (List.range (xs.takeWhile isWordCh).length).any
        (fun j => matchPost ts (xs.drop (j + 1)))

/-- Greedy capture of the digit group: try the longest digit run first and
backtrack down to the minimum repetition, as the source regexes'
`(\d{4,6})` / `(\d+)` do. -/
def tryGroup (post : List PostTok) (gmin : Nat) (rest : List Char) :
    Nat → Option (List Char)
  | 0 => none
  | j + 1 =>
    if j + 1 < gmin then none
    else if matchPost post (rest.drop (j + 1)) then some (rest.take (j + 1))
    else tryGroup post gmin rest j

/-- Try to match a pattern starting exactly at the head of `l`, returning the
captured digit run. -/
def matchAt (p : FramePattern) (l : List Char) : Option (List Char) :=
  match dropLits p.lead l with
  | none => none
  | some rest =>
      let ds := rest.takeWhile isDigitCh
      let k := match p.gmax with
        | none => ds.length
        | some m => min ds.length m
      tryGroup p.post p.gmin rest k
where
  /-- Strip the literal lead of the pattern. -/
  dropLits : List Char → List Char → Option (List Char)
    | [], l => some l
    | _ :: _, [] => none
    | c :: cs, x :: xs => if x = c then dropLits cs xs else none

/-- `re.search` over the five anchored patterns: try every start position from
the left; the first position admitting a match wins. -/
def searchPat (p : FramePattern) : List Char → Option (List Char)
  | [] => matchAt p []
  | l@(_ :: rest) =>
      match matchAt p l with
      | some cap => some cap
      | none => searchPat p rest

/-- `int()` applied to the captured digit run. -/
def digitsToNat (ds : List Char) : Nat :=
  ds.foldl (fun a c => 10 * a + (c.toNat - 48)) 0

/-- Pattern `_(\d{4,6})_\d+\.bphys$` (ptcache `prefix_FRAME_index.bphys`). -/
def patPtcacheIndexed : FramePattern :=
  ⟨['_'], 4, some 6,
    [.lit '_', .digitsPlus, .lit '.', .lit 'b', .lit 'p', .lit 'h', .lit 'y', .lit 's']⟩

/-- Pattern `_(\d{4,6})\.bphys$` (simple ptcache). -/
def patPtcacheSimple : FramePattern :=
  ⟨['_'], 4, some 6, [.lit '.', .lit 'b', .lit 'p', .lit 'h', .lit 'y', .lit 's']⟩

/-- Pattern `_(\d{4,6})\.vdb$` (fluids OpenVDB). -/
def patVdb : FramePattern :=
  ⟨['_'], 4, some 6, [.lit '.', .lit 'v', .lit 'd', .lit 'b']⟩

/-- Pattern `data_(\d{4,6})\.vdb$` (Mantaflow). -/
def patMantaflow : FramePattern :=
  ⟨['d', 'a', 't', 'a', '_'], 4, some 6, [.lit '.', .lit 'v', .lit 'd', .lit 'b']⟩

/-- Pattern `_(\d+)\.\w+$` (generic fallback). -/
def patGeneric : FramePattern :=
  ⟨['_'], 1, none, [.lit '.', .wordPlus]⟩

/-- `FRAME_PATTERNS` of `pipeline _old.py`, in source order. -/
def FRAME_PATTERNS : List FramePattern :=
  [patPtcacheIndexed, patPtcacheSimple, patVdb, patMantaflow, patGeneric]

/-- `extract_frame_number` of `pipeline _old.py`: apply the ordered pattern
list to the file name, return the integer captured by the first pattern that
matches, and `none` when no pattern matches. -/
def extract_frame_number (name : String) : Option Nat :=
  go FRAME_PATTERNS
where
  go : List FramePattern → Option Nat
    | [] => none
    | p :: ps =>
        match searchPat p name.toList with
        | some cap => some (digitsToNat cap)
        | none => go ps

example : extract_frame_number "cache_0042_7.bphys" = some 42 := by decide
example : extract_frame_number "cache_0042.bphys" = some 42 := by decide
example : extract_frame_number "fluid_0042.vdb" = some 42 := by decide
example : extract_frame_number "data_0042.vdb" = some 42 := by decide
example : extract_frame_number "frame_0042.png" = some 42 := by decide
example : extract_frame_number "frame_7.png" = some 7 := by decide
example : extract_frame_number "scene.blend" = none := by decide
example : extract_frame_number "cache.bphys" = none := by decide

/- ============================================================
   Decimal digits, and canonical constructed filenames
   ============================================================ -/

/-- The decimal digit character of `d % 10`. -/
def digitToChar (d : Nat) : Char :=
  match d % 10 with
  | 0 => '0' | 1 => '1' | 2 => '2' | 3 => '3' | 4 => '4'
  | 5 => '5' | 6 => '6' | 7 => '7' | 8 => '8' | _ => '9'

/-- The zero-padded four-digit decimal rendering of `n` (Blender's frame
padding), e.g. `pad4 42 = "0042"`. -/
def pad4 (n : Nat) : List Char :=
  [digitToChar (n / 1000), digitToChar (n / 100), digitToChar (n / 10), digitToChar n]

theorem isDigitCh_digitToChar (d : Nat) : isDigitCh (digitToChar d) = true := by
  have h : d % 10 < 10 := Nat.mod_lt _ (by omega)
  unfold digitToChar
  generalize d % 10 = m at h ⊢
  interval_cases m <;> decide

theorem toNat_digitToChar (d : Nat) : (digitToChar d).toNat = 48 + d % 10 := by
  have h : d % 10 < 10 := Nat.mod_lt _ (by omega)
  unfold digitToChar
  generalize d % 10 = m at h ⊢
  interval_cases m <;> decide

theorem digitToChar_ne (d : Nat) (c : Char) (hc : c.toNat < 48 ∨ 57 < c.toNat) :
    digitToChar d ≠ c := by
  intro h
  have ht := toNat_digitToChar d
  rw [h] at ht
  have h10 : d % 10 < 10 := Nat.mod_lt _ (by omega)
  omega

theorem pad4_ne (n : Nat) (c' : Char) (hc : c'.toNat < 48 ∨ 57 < c'.toNat) :
    ∀ c ∈ pad4 n, c ≠ c' := by
  intro c hcmem
  simp only [pad4, List.mem_cons, List.not_mem_nil, or_false] at hcmem
  rcases hcmem with rfl | rfl | rfl | rfl <;> exact digitToChar_ne _ _ hc

theorem pad4_isDigit (n : Nat) : ∀ c ∈ pad4 n, isDigitCh c = true := by
  intro c hcmem
  simp only [pad4, List.mem_cons, List.not_mem_nil, or_false] at hcmem
  rcases hcmem with rfl | rfl | rfl | rfl <;> exact isDigitCh_digitToChar _

theorem pad4_length (n : Nat) : (pad4 n).length = 4 := rfl

theorem digitsToNat_pad4 (n : Nat) (h : n < 10000) : digitsToNat (pad4 n) = n := by
  simp only [digitsToNat, pad4, List.foldl_cons, List.foldl_nil, toNat_digitToChar]
  omega

/- ============================================================
   Evaluation lemmas for the pattern-search engine
   ============================================================ -/

theorem searchPat_cons_none {p : FramePattern} {c : Char} {l : List Char}
    (h : matchAt p (c :: l) = none) : searchPat p (c :: l) = searchPat p l := by
  simp [searchPat, h]

theorem matchAt_cons_ne {p : FramePattern} {c₀ : Char} {cs : List Char}
    (hp : p.lead = c₀ :: cs) {c : Char} (hne : c ≠ c₀) (l : List Char) :
    matchAt p (c :: l) = none := by
  unfold matchAt
  rw [hp]
  simp [matchAt.dropLits, hne]

theorem searchPat_append_ne {p : FramePattern} {c₀ : Char} {cs : List Char}
    (hp : p.lead = c₀ :: cs) {l₁ : List Char} (h : ∀ c ∈ l₁, c ≠ c₀) (l₂ : List Char) :
    searchPat p (l₁ ++ l₂) = searchPat p l₂ := by
  induction l₁ with
  | nil => rfl
  | cons a t ih =>
      rw [List.cons_append,
        searchPat_cons_none (matchAt_cons_ne hp (h a (List.mem_cons_self a t)) _)]
      exact ih (fun c hc => h c (List.mem_cons_of_mem _ hc))

/-- Successful match of an underscore-led pattern at its aligned position: the
padded digits are captured whole. -/
theorem matchAt_pad4_some (gmin : Nat) (gmax : Option Nat) (post : List PostTok)
    (n : Nat) (tail : List Char) (hg : 0 < gmin ∧ gmin ≤ 4)
    (hk : (match gmax with | none => (4:Nat) | some m => min 4 m) = 4)
    (htail : tail.takeWhile isDigitCh = [])
    (hpost : matchPost post tail = true) :
    matchAt ⟨['_'], gmin, gmax, post⟩ ('_' :: (pad4 n ++ tail)) = some (pad4 n) := by
  have hdw : (pad4 n ++ tail).takeWhile isDigitCh = pad4 n := by
    rw [List.takeWhile_append_of_pos (pad4_isDigit n), htail, List.append_nil]
  unfold matchAt
  simp only [matchAt.dropLits, if_true]
  simp only [hdw, pad4_length]
  rw [hk]
  show tryGroup post gmin (pad4 n ++ tail) (3 + 1) = some (pad4 n)
  rw [tryGroup]
  have hdrop : (pad4 n ++ tail).drop (3 + 1) = tail := by
    have := List.drop_left (pad4 n) tail
    rwa [pad4_length] at this
  have htake : (pad4 n ++ tail).take (3 + 1) = pad4 n := by
    have := List.take_left (pad4 n) tail
    rwa [pad4_length] at this
  rw [if_neg (by omega), hdrop, hpost, htake]
  simp

/-- Failed match of an underscore-led `{4,6}`-group pattern at its aligned
position, when the post part rejects the tail. -/
theorem matchAt_pad4_none (gmax : Option Nat) (post : List PostTok)
    (n : Nat) (tail : List Char)
    (hk : (match gmax with | none => (4:Nat) | some m => min 4 m) = 4)
    (htail : tail.takeWhile isDigitCh = [])
    (hpost : matchPost post tail = false) :
    matchAt ⟨['_'], 4, gmax, post⟩ ('_' :: (pad4 n ++ tail)) = none := by
  have hdw : (pad4 n ++ tail).takeWhile isDigitCh = pad4 n := by
    rw [List.takeWhile_append_of_pos (pad4_isDigit n), htail, List.append_nil]
  unfold matchAt
  simp only [matchAt.dropLits, if_true]
  simp only [hdw, pad4_length]
  rw [hk]
  show tryGroup post 4 (pad4 n ++ tail) (3 + 1) = none
  rw [tryGroup]
  have hdrop : (pad4 n ++ tail).drop (3 + 1) = tail := by
    have := List.drop_left (pad4 n) tail
    rwa [pad4_length] at this
  rw [if_neg (by omega), hdrop, hpost]
  simp only [Bool.false_eq_true, if_false]
  show tryGroup post 4 (pad4 n ++ tail) (2 + 1) = none
  rw [tryGroup, if_pos (by omega)]

/-- `searchPat` returns `none` on a list in which the pattern's first literal
never occurs. -/
theorem searchPat_none_of_all_ne {p : FramePattern} {c₀ : Char} {cs : List Char}
    (hp : p.lead = c₀ :: cs) {l : List Char} (h : ∀ c ∈ l, c ≠ c₀) :
    searchPat p l = none := by
  have := searchPat_append_ne hp h []
  rw [List.append_nil] at this
  rw [this]
  show matchAt p [] = none
  unfold matchAt
  rw [hp]
  rfl

theorem searchPat_cons_some {p : FramePattern} {c : Char} {l : List Char}
    {cap : List Char} (h : matchAt p (c :: l) = some cap) :
    searchPat p (c :: l) = some cap := by
  simp [searchPat, h]

/- ============================================================
   Round-trip filenames, one per supported naming convention
   ============================================================ -/

/-- A ptcache indexed filename with embedded frame number `n`:
`cache_NNNN_7.bphys`. -/
def ptcacheIndexedName (n : Nat) : String :=
  String.mk (['c', 'a', 'c', 'h', 'e'] ++
    '_' :: (pad4 n ++ ['_', '7', '.', 'b', 'p', 'h', 'y', 's']))

/-- A simple ptcache filename with embedded frame number `n`:
`cache_NNNN.bphys`. -/
def ptcacheSimpleName (n : Nat) : String :=
  String.mk (['c', 'a', 'c', 'h', 'e'] ++
    '_' :: (pad4 n ++ ['.', 'b', 'p', 'h', 'y', 's']))

/-- A fluids OpenVDB filename with embedded frame number `n`:
`fluid_NNNN.vdb`. -/
def fluidVdbName (n : Nat) : String :=
  String.mk (['f', 'l', 'u', 'i', 'd'] ++
    '_' :: (pad4 n ++ ['.', 'v', 'd', 'b']))

/-- A Mantaflow filename with embedded frame number `n`: `data_NNNN.vdb`. -/
def mantaflowName (n : Nat) : String :=
  String.mk (['d', 'a', 't', 'a'] ++
    '_' :: (pad4 n ++ ['.', 'v', 'd', 'b']))

/-- A generic trailing-number filename with embedded frame number `n`:
`frame_NNNN.png`. -/
def genericName (n : Nat) : String :=
  String.mk (['f', 'r', 'a', 'm', 'e'] ++
    '_' :: (pad4 n ++ ['.', 'p', 'n', 'g']))

/-- A `{4,6}`-group underscore pattern fails on a padded name when its post
part rejects the tail. -/
theorem searchPat_pad4_fail (post : List PostTok) (pre tail : List Char) (n : Nat)
    (hpre : ∀ c ∈ pre, c ≠ '_')
    (htail1 : tail.takeWhile isDigitCh = [])
    (htail2 : matchPost post tail = false)
    (htail3 : searchPat ⟨['_'], 4, some 6, post⟩ tail = none) :
    searchPat ⟨['_'], 4, some 6, post⟩ (pre ++ '_' :: (pad4 n ++ tail)) = none := by
  rw [searchPat_append_ne rfl hpre,
    searchPat_cons_none (matchAt_pad4_none (some 6) _ n _ (by decide) htail1 htail2),
    searchPat_append_ne rfl (pad4_ne n '_' (by decide))]
  exact htail3

/-- An underscore pattern matches a padded name at the underscore, capturing
the four padded digits, when its post part accepts the tail. -/
theorem searchPat_pad4_success (gmin : Nat) (gmax : Option Nat) (post : List PostTok)
    (pre tail : List Char) (n : Nat)
    (hpre : ∀ c ∈ pre, c ≠ '_') (hg : 0 < gmin ∧ gmin ≤ 4)
    (hk : (match gmax with | none => (4:Nat) | some m => min 4 m) = 4)
    (htail1 : tail.takeWhile isDigitCh = [])
    (hpost : matchPost post tail = true) :
    searchPat ⟨['_'], gmin, gmax, post⟩ (pre ++ '_' :: (pad4 n ++ tail)) =
      some (pad4 n) := by
  rw [searchPat_append_ne rfl hpre]
  exact searchPat_cons_some (matchAt_pad4_some gmin gmax post n tail hg hk htail1 hpost)

theorem extract_ptcacheIndexed (n : Nat) (h : n < 10000) :
    extract_frame_number (ptcacheIndexedName n) = some n := by
  have h1 : searchPat patPtcacheIndexed (ptcacheIndexedName n).toList = some (pad4 n) :=
    searchPat_pad4_success 4 (some 6) _ ['c', 'a', 'c', 'h', 'e'] _ n
      (by decide) ⟨by omega, by omega⟩ (by decide) (by decide) (by decide)
  simp only [extract_frame_number, FRAME_PATTERNS, extract_frame_number.go, h1]
  rw [digitsToNat_pad4 n h]

theorem extract_ptcacheSimple (n : Nat) (h : n < 10000) :
    extract_frame_number (ptcacheSimpleName n) = some n := by
  have h1 : searchPat patPtcacheIndexed (ptcacheSimpleName n).toList = none :=
    searchPat_pad4_fail _ ['c', 'a', 'c', 'h', 'e'] _ n
      (by decide) (by decide) (by decide) (by decide)
  have h2 : searchPat patPtcacheSimple (ptcacheSimpleName n).toList = some (pad4 n) :=
    searchPat_pad4_success 4 (some 6) _ ['c', 'a', 'c', 'h', 'e'] _ n
      (by decide) ⟨by omega, by omega⟩ (by decide) (by decide) (by decide)
  simp only [extract_frame_number, FRAME_PATTERNS, extract_frame_number.go, h1, h2]
  rw [digitsToNat_pad4 n h]

theorem extract_fluidVdb (n : Nat) (h : n < 10000) :
    extract_frame_number (fluidVdbName n) = some n := by
  have h1 : searchPat patPtcacheIndexed (fluidVdbName n).toList = none :=
    searchPat_pad4_fail _ ['f', 'l', 'u', 'i', 'd'] _ n
      (by decide) (by decide) (by decide) (by decide)
  have h2 : searchPat patPtcacheSimple (fluidVdbName n).toList = none :=
    searchPat_pad4_fail _ ['f', 'l', 'u', 'i', 'd'] _ n
      (by decide) (by decide) (by decide) (by decide)
  have h3 : searchPat patVdb (fluidVdbName n).toList = some (pad4 n) :=
    searchPat_pad4_success 4 (some 6) _ ['f', 'l', 'u', 'i', 'd'] _ n
      (by decide) ⟨by omega, by omega⟩ (by decide) (by decide) (by decide)
  simp only [extract_frame_number, FRAME_PATTERNS, extract_frame_number.go, h1, h2, h3]
  rw [digitsToNat_pad4 n h]

theorem extract_mantaflow (n : Nat) (h : n < 10000) :
    extract_frame_number (mantaflowName n) = some n := by
  have h1 : searchPat patPtcacheIndexed (mantaflowName n).toList = none :=
    searchPat_pad4_fail _ ['d', 'a', 't', 'a'] _ n
      (by decide) (by decide) (by decide) (by decide)
  have h2 : searchPat patPtcacheSimple (mantaflowName n).toList = none :=
    searchPat_pad4_fail _ ['d', 'a', 't', 'a'] _ n
      (by decide) (by decide) (by decide) (by decide)
  have h3 : searchPat patVdb (mantaflowName n).toList = some (pad4 n) :=
    searchPat_pad4_success 4 (some 6) _ ['d', 'a', 't', 'a'] _ n
      (by decide) ⟨by omega, by omega⟩ (by decide) (by decide) (by decide)
  simp only [extract_frame_number, FRAME_PATTERNS, extract_frame_number.go, h1, h2, h3]
  rw [digitsToNat_pad4 n h]

theorem extract_generic (n : Nat) (h : n < 10000) :
    extract_frame_number (genericName n) = some n := by
  have h1 : searchPat patPtcacheIndexed (genericName n).toList = none :=
    searchPat_pad4_fail _ ['f', 'r', 'a', 'm', 'e'] _ n
      (by decide) (by decide) (by decide) (by decide)
  have h2 : searchPat patPtcacheSimple (genericName n).toList = none :=
    searchPat_pad4_fail _ ['f', 'r', 'a', 'm', 'e'] _ n
      (by decide) (by decide) (by decide) (by decide)
  have h3 : searchPat patVdb (genericName n).toList = none :=
    searchPat_pad4_fail _ ['f', 'r', 'a', 'm', 'e'] _ n
      (by decide) (by decide) (by decide) (by decide)
  have h4 : searchPat patMantaflow (genericName n).toList = none := by
    refine searchPat_none_of_all_ne rfl ?_
    intro c hc
    have hc' : c ∈ ['f', 'r', 'a', 'm', 'e'] ++ '_' :: (pad4 n ++ ['.', 'p', 'n', 'g']) :=
      hc
    simp only [List.mem_append, List.mem_cons, List.not_mem_nil, or_false] at hc'
    rcases hc' with (rfl | rfl | rfl | rfl | rfl) | rfl | hc' | (rfl | rfl | rfl | rfl)
    all_goals first
      | decide
      | exact pad4_ne n 'd' (by decide) c hc'
  have h5 : searchPat patGeneric (genericName n).toList = some (pad4 n) :=
    searchPat_pad4_success 1 none _ ['f', 'r', 'a', 'm', 'e'] _ n
      (by decide) ⟨by omega, by omega⟩ (by decide) (by decide) (by decide)
  simp only [extract_frame_number, FRAME_PATTERNS, extract_frame_number.go,
    h1, h2, h3, h4, h5]
  rw [digitsToNat_pad4 n h]

/-- C2: `extract_frame_number` is a pure total function from a file name to an
optional integer applying the ordered pattern list (first match wins, `none`
without raising when nothing matches), and for each supported naming
convention a filename constructed with embedded frame number `n` round-trips:
`extract_frame_number(...) = some n`.  The last conjunct shows the ordered
first-match-wins discipline on a name where the ptcache pattern and the
generic fallback would capture different numbers (42 versus 7). -/
theorem claim_C2_frame_codec_roundtrip (n : Nat) (h : n < 10000) :
    extract_frame_number (ptcacheIndexedName n) = some n ∧
    extract_frame_number (ptcacheSimpleName n) = some n ∧
    extract_frame_number (fluidVdbName n) = some n ∧
    extract_frame_number (mantaflowName n) = some n ∧
    extract_frame_number (genericName n) = some n ∧
    extract_frame_number "scene.blend" = none ∧
    extract_frame_number "cache_0042_7.bphys" = some 42 :=
  ⟨extract_ptcacheIndexed n h, extract_ptcacheSimple n h, extract_fluidVdb n h,
   extract_mantaflow n h, extract_generic n h, by decide, by decide⟩

/-- Witness for C2 at the concrete frame number 42. -/
theorem claim_C2_frame_codec_roundtrip_witness :
    extract_frame_number (ptcacheIndexedName 42) = some 42 ∧
    extract_frame_number (ptcacheSimpleName 42) = some 42 ∧
    extract_frame_number (fluidVdbName 42) = some 42 ∧
    extract_frame_number (mantaflowName 42) = some 42 ∧
    extract_frame_number (genericName 42) = some 42 ∧
    extract_frame_number "scene.blend" = none ∧
    extract_frame_number "cache_0042_7.bphys" = some 42 :=
  claim_C2_frame_codec_roundtrip 42 (by decide)

/- ============================================================
   Frame Watcher write-stability gate
   (`pipeline _old.py`, `FrameWatcher._wait_stable`)
   ============================================================ -/

/-- Poll interval of `_wait_stable`, in seconds (`time.sleep(0.3)`). -/
def WAIT_INTERVAL : ℚ := 3 / 10

/-- Bounded timeout of `_wait_stable`, in seconds (`timeout: float = 3.0`). -/
def WAIT_TIMEOUT : ℚ := 3

/-- Number of loop iterations of `_wait_stable` with exact interval
arithmetic: the loop body runs while `waited < timeout` and adds the interval
each time through. -/
def WAIT_POLLS : Nat := 10

/-- `FrameWatcher._wait_stable`, over the sequence of `stat` results the polls
observe.  Each list element is one poll: `some size`, or `none` when `stat`
raised `OSError`.  `last` is the running `last_size`, initialised to `-1`.
Returns whether the file is considered stable (and hence enqueued). -/
def wait_stable : List (Option Nat) → Int → Bool
  | [], last => decide (0 < last)
  | r :: rs, last =>
      match r with
      | none => false
      | some size =>
          if (size : Int) = last ∧ 0 < size then true
          else wait_stable rs (size : Int)

/-- `_wait_stable` with the source's default interval and timeout: exactly
`WAIT_POLLS` polls of the file's size. -/
def wait_stable_run (reads : Nat → Option Nat) : Bool :=
  wait_stable ((List.range WAIT_POLLS).map reads) (-1)

/-- The loop fires (returns `True` before the timeout): some read equals the
preceding value and is positive. -/
def firesWith : Int → List Nat → Bool
  | _, [] => false
  | last, v :: vs => ((v : Int) = last && 0 < v) || firesWith (v : Int) vs

/-- The value of `last_size` after all reads. -/
def lastRead (last : Int) (vs : List Nat) : Int :=
  vs.foldl (fun _ v => (v : Int)) last

/-- The read sequence contains two consecutive equal non-zero sizes. -/
def hasStablePairB (vs : List Nat) : Bool :=
  (vs.zip vs.tail).any (fun p => p.1 = p.2 && 0 < p.1)

theorem wait_stable_some_eq (vs : List Nat) (last : Int) :
    wait_stable (vs.map some) last =
      (firesWith last vs || decide (0 < lastRead last vs)) := by
  induction vs generalizing last with
  | nil => simp [wait_stable, firesWith, lastRead]
  | cons v vs ih =>
      show wait_stable (some v :: vs.map some) last = _
      rw [wait_stable]
      by_cases hc : (v : Int) = last ∧ 0 < v
      · rw [if_pos hc]
        have : firesWith last (v :: vs) = true := by
          rw [firesWith]
          simp [hc.1, hc.2]
        rw [this]
        rfl
      · rw [if_neg hc, ih]
        have hfw : firesWith last (v :: vs) = firesWith (v : Int) vs := by
          rw [firesWith]
          rcases Decidable.not_and_iff_or_not.mp hc with h1 | h2
          · simp [h1]
          · simp [h2]
        rw [hfw]
        rfl

theorem firesWith_neg_one (vs : List Nat) :
    firesWith (-1) vs = hasStablePairB vs := by
  have key : ∀ (v : Nat) (ws : List Nat),
      firesWith (v : Int) ws = hasStablePairB (v :: ws) := by
    intro v ws
    induction ws generalizing v with
    | nil => rfl
    | cons w ws ih =>
        rw [firesWith]
        have hz : hasStablePairB (v :: w :: ws) =
            ((decide (v = w) && decide (0 < v)) || hasStablePairB (w :: ws)) := by
          simp [hasStablePairB, List.zip, Bool.or_comm, Bool.or_left_comm,
            Bool.or_assoc]
        rw [hz, ← ih w]
        have harg : ((w : Int) = (v : Int) && decide (0 < w) : Bool)
            = (decide (v = w) && decide (0 < v)) := by
          by_cases hvw : v = w
          · subst hvw; simp
          · have h1 : ¬((w : Int) = (v : Int)) := by
              intro e
              exact hvw (by exact_mod_cast e.symm)
            simp [h1, hvw]
        rw [harg]
  cases vs with
  | nil => rfl
  | cons v ws =>
      rw [firesWith]
      have h1 : ¬((v : Int) = (-1 : Int)) := by omega
      simp only [h1]
      simp only [decide_eq_true_eq, h1, not_false_eq_true, decide_eq_false,
        Bool.false_and, Bool.false_or]
      exact key v ws

theorem wait_stable_oserror (vs : List Nat) (rest : List (Option Nat)) (last : Int)
    (h : firesWith last vs = false) :
    wait_stable (vs.map some ++ none :: rest) last = false := by
  induction vs generalizing last with
  | nil => rfl
  | cons v vs ih =>
      rw [firesWith] at h
      have hab := Bool.or_eq_false_iff.mp h
      have h1 : ¬((v : Int) = last ∧ 0 < v) := by
        intro hc
        simp [hc.1, hc.2] at hab
      show wait_stable (some v :: (vs.map some ++ none :: rest)) last = false
      rw [wait_stable, if_neg h1]
      exact ih _ hab.2

/-- C5: the write-stability gate polls the size at a fixed 0.3 s interval with
a 3 s bound (10 polls); the file is enqueued as soon as two consecutive polls
return the same non-zero size; when the bound elapses first it is enqueued iff
the last observed size was non-zero; a read failure (`OSError`) drops the
file; and with changing sizes the gate never returns `True` before either a
stable pair or the timeout: the result is exactly "a stable pair fired, or
the final `last_size` is positive". -/
theorem claim_C5_write_stability_gate :
    WAIT_INTERVAL = 3 / 10 ∧ WAIT_TIMEOUT = 3 ∧
    (WAIT_POLLS : ℚ) * WAIT_INTERVAL = WAIT_TIMEOUT ∧
    (∀ reads : Nat → Option Nat,
      wait_stable_run reads = wait_stable ((List.range WAIT_POLLS).map reads) (-1)) ∧
    (∀ (vs : List Nat) (last : Int),
      wait_stable (vs.map some) last =
        (firesWith last vs || decide (0 < lastRead last vs))) ∧
    (∀ vs : List Nat, firesWith (-1) vs = hasStablePairB vs) ∧
    (∀ (vs : List Nat) (rest : List (Option Nat)),
      firesWith (-1) vs = false →
        wait_stable (vs.map some ++ none :: rest) (-1) = false) :=
  ⟨by norm_num [WAIT_INTERVAL, WAIT_TIMEOUT], by norm_num [WAIT_TIMEOUT],
    by norm_num [WAIT_POLLS, WAIT_INTERVAL, WAIT_TIMEOUT],
    fun _ => rfl,
    wait_stable_some_eq,
    firesWith_neg_one,
    fun vs rest h => wait_stable_oserror vs rest (-1) h⟩

/-- Witness for C5 at concrete poll traces: a stable pair of non-zero reads
fires, and an `OSError` after a changing read drops the file. -/
theorem claim_C5_write_stability_gate_witness :
    wait_stable (([5, 5] : List Nat).map some) (-1) = true ∧
    wait_stable (([4] : List Nat).map some ++ none :: []) (-1) = false :=
  ⟨(claim_C5_write_stability_gate.2.2.2.2.1 [5, 5] (-1)).trans (by decide),
   claim_C5_write_stability_gate.2.2.2.2.2.2 [4] [] (by decide)⟩

/- ============================================================
   Presigned-URL uploader (`presigned_uploader.py`, `PresignedUploader`)
   ============================================================ -/

/-- Default `max_retries` of `PresignedUploader.upload_file`. -/
def MAX_RETRIES : Nat := 3

/-- The counters of a `PresignedUploader` instance. -/
structure UploaderStats where
  totalBytesUploaded : Nat
  totalFilesUploaded : Nat
  totalErrors : Nat
  lastError : Option String
deriving DecidableEq

/-- The fresh `PresignedUploader.__init__` state. -/
def UploaderStats.init : UploaderStats := ⟨0, 0, 0, none⟩

/-- What one `PUT` attempt yields: an HTTP response with a status code, or a
raised `HTTPError`/`URLError` (network-level 4xx/5xx-class failure). -/
inductive PutOutcome where
  | resp (status : Nat)
  | netErr (msg : String)
deriving DecidableEq

/-- An attempt fails iff it raised, or the response status is not one of
`(200, 201, 204)` (in which case the source raises `RuntimeError` itself):
both are caught by the same `except` clause. -/
def putFails : PutOutcome → Bool
  | .resp s => !(s = 200 || s = 201 || s = 204)
  | .netErr _ => true

/-- The `str(e)` recorded into `last_error`. -/
def putErrText : PutOutcome → String
  | .resp s => "PUT " ++ toString s
  | .netErr m => m

/-- Observable actions of `upload_file`: one `PUT` attempt (numbered from 1),
or one `time.sleep(delay)` between attempts. -/
inductive UploadEv where
  | put (attempt : Nat)
  | sleep (seconds : Nat)
deriving DecidableEq

/-- The retry loop `for attempt in range(1, max_retries + 1)` of
`PresignedUploader.upload_file`.  `attempt` is the current attempt number,
`remaining` the number of loop iterations left (`max_retries - attempt + 1`).
Returns the success flag, the updated counters, and the event trace. -/
def uploadAttempts (outcomes : Nat → PutOutcome) (fileSize : Nat) :
    (attempt remaining : Nat) → UploaderStats → Bool × UploaderStats × List UploadEv
  | _, 0, st => (false, st, [])
  | attempt, r + 1, st =>
      let o := outcomes attempt
      if putFails o then
        let st' := { st with lastError := some (putErrText o) }
        if r = 0 then
          (false, { st' with totalErrors := st'.totalErrors + 1 }, [.put attempt])
        else
          let rec' := uploadAttempts outcomes fileSize (attempt + 1) r st'
          (rec'.1, rec'.2.1,
            .put attempt :: .sleep (2 ^ (attempt - 1)) :: rec'.2.2)
      else
        (true,
          { st with
              totalBytesUploaded := st.totalBytesUploaded + fileSize,
              totalFilesUploaded := st.totalFilesUploaded + 1 },
          [.put attempt])

/-- `PresignedUploader.upload_file`: missing file returns `False` with no
attempt; otherwise the bounded retry loop runs with `max_retries` attempts. -/
def upload_file (st : UploaderStats) (fileExists : Bool) (fileSize : Nat)
    (outcomes : Nat → PutOutcome) (maxRetries : Nat) :
    Bool × UploaderStats × List UploadEv :=
  if fileExists then uploadAttempts outcomes fileSize 1 maxRetries st
  else (false, st, [])

/-- The `PUT` attempts of a trace. -/
def putsOf (evs : List UploadEv) : List Nat :=
  evs.filterMap fun e => match e with | .put a => some a | _ => none

/-- The back-off delays of a trace, in seconds and in order. -/
def sleepsOf (evs : List UploadEv) : List Nat :=
  evs.filterMap fun e => match e with | .sleep s => some s | _ => none

/-- The event trace of a run in which every attempt fails, attempts numbered
from `a`, `r` attempts in all. -/
def failTrace : Nat → Nat → List UploadEv
  | _, 0 => []
  | a, 1 => [.put a]
  | a, r + 2 => .put a :: .sleep (2 ^ (a - 1)) :: failTrace (a + 1) (r + 1)

theorem uploadAttempts_all_fail (o : Nat → PutOutcome) (n : Nat)
    (hfail : ∀ i, putFails (o i) = true) :
    ∀ (r a : Nat) (st : UploaderStats), 0 < r →
      uploadAttempts o n a r st =
        (false,
         { st with lastError := some (putErrText (o (a + r - 1))),
                   totalErrors := st.totalErrors + 1 },
         failTrace a r) := by
  intro r
  induction r with
  | zero => intro a st h; omega
  | succ r' ih =>
      intro a st _
      cases r' with
      | zero =>
          rw [uploadAttempts, hfail a]
          simp [failTrace]
      | succ r'' =>
          rw [uploadAttempts, hfail a]
          simp only [if_true, Nat.succ_ne_zero, if_false, ite_false]
          rw [ih (a + 1) _ (Nat.succ_pos _)]
          have harg : a + 1 + (r'' + 1) - 1 = a + (r'' + 1 + 1) - 1 := by omega
          rw [harg]
          simp [failTrace]

theorem putsOf_uploadAttempts_le (o : Nat → PutOutcome) (n : Nat) :
    ∀ (r a : Nat) (st : UploaderStats),
      (putsOf (uploadAttempts o n a r st).2.2).length ≤ r := by
  intro r
  induction r with
  | zero => intro a st; simp [uploadAttempts, putsOf]
  | succ r' ih =>
      intro a st
      rw [uploadAttempts]
      by_cases hf : putFails (o a) = true
      · rw [if_pos hf]
        by_cases hr : r' = 0
        · rw [if_pos hr]; simp [putsOf]
        · rw [if_neg hr]
          simp only [putsOf, List.filterMap_cons]
          have := ih (a + 1) { st with lastError := some (putErrText (o a)) }
          simp only [putsOf] at this
          simpa using Nat.succ_le_succ this
      · rw [if_neg hf]
        simp [putsOf]

/-- The observables of an `upload_file` run: everything except `last_error`
(whose text mentions which kind of error occurred, not how it was treated). -/
def uploadObs (r : Bool × UploaderStats × List UploadEv) :
    Bool × Nat × Nat × Nat × List UploadEv :=
  (r.1, r.2.1.totalBytesUploaded, r.2.1.totalFilesUploaded, r.2.1.totalErrors, r.2.2)

theorem uploadAttempts_obs_congr (n : Nat) (f g : Nat → PutOutcome)
    (h : ∀ i, putFails (f i) = putFails (g i)) :
    ∀ (r a : Nat) (st1 st2 : UploaderStats),
      st1.totalBytesUploaded = st2.totalBytesUploaded →
      st1.totalFilesUploaded = st2.totalFilesUploaded →
      st1.totalErrors = st2.totalErrors →
      uploadObs (uploadAttempts f n a r st1) = uploadObs (uploadAttempts g n a r st2) := by
  intro r
  induction r with
  | zero =>
      intro a st1 st2 hb hf he
      simp [uploadAttempts, uploadObs, hb, hf, he]
  | succ r' ih =>
      intro a st1 st2 hb hf he
      rw [uploadAttempts, uploadAttempts, ← h a]
      by_cases hfa : putFails (f a) = true
      · rw [if_pos hfa, if_pos hfa]
        by_cases hr : r' = 0
        · rw [if_pos hr, if_pos hr]
          simp [uploadObs, hb, hf, he]
        · rw [if_neg hr, if_neg hr]
          have hrec := ih (a + 1)
            { st1 with lastError := some (putErrText (f a)) }
            { st2 with lastError := some (putErrText (g a)) }
            hb hf he
          simp only [uploadObs, Prod.mk.injEq] at hrec ⊢
          exact ⟨hrec.1, hrec.2.1, hrec.2.2.1, hrec.2.2.2.1,
            by rw [hrec.2.2.2.2]⟩
      · rw [if_neg hfa, if_neg hfa]
        simp [uploadObs, hb, hf, he]

/-- C6 counterexample: in a run whose three attempts all fail, the back-off
delays actually slept are 1 s and 2 s — the claimed third delay of 4 s never
occurs, because no delay follows the final attempt. -/
theorem claim_C6_counterexample :
    sleepsOf (upload_file UploaderStats.init true 100
      (fun _ => .netErr "connection refused") MAX_RETRIES).2.2 = [1, 2] ∧
    sleepsOf (upload_file UploaderStats.init true 100
      (fun _ => .netErr "connection refused") MAX_RETRIES).2.2 ≠ [1, 2, 4] := by
  constructor
  · rfl
  · decide

/-- C6 (amended): in presigned-URL mode an upload performs at most 3 `PUT`
attempts; a non-2xx response and a raised 4xx/5xx-class error are treated
identically (same result, counters and trace); between consecutive attempts
the uploader backs off exponentially with delays `2^(attempt-1)`, i.e. 1 s
then 2 s (no delay follows the final attempt); after the budget is exhausted
the upload returns failure and the error counter is incremented exactly
once. -/
theorem claim_C6_presigned_retry (st : UploaderStats) (fileSize : Nat)
    (outcomes : Nat → PutOutcome) (hfail : ∀ i, putFails (outcomes i) = true) :
    (upload_file st true fileSize outcomes MAX_RETRIES).1 = false ∧
    (upload_file st true fileSize outcomes MAX_RETRIES).2.1.totalErrors
      = st.totalErrors + 1 ∧
    (upload_file st true fileSize outcomes MAX_RETRIES).2.1.totalFilesUploaded
      = st.totalFilesUploaded ∧
    (upload_file st true fileSize outcomes MAX_RETRIES).2.1.totalBytesUploaded
      = st.totalBytesUploaded ∧
    putsOf (upload_file st true fileSize outcomes MAX_RETRIES).2.2 = [1, 2, 3] ∧
    sleepsOf (upload_file st true fileSize outcomes MAX_RETRIES).2.2 = [1, 2] ∧
    (∀ g : Nat → PutOutcome,
      (putsOf (upload_file st true fileSize g MAX_RETRIES).2.2).length ≤ MAX_RETRIES) ∧
    (∀ f g : Nat → PutOutcome, (∀ i, putFails (f i) = putFails (g i)) →
      uploadObs (upload_file st true fileSize f MAX_RETRIES)
        = uploadObs (upload_file st true fileSize g MAX_RETRIES)) := by
  have hrun : upload_file st true fileSize outcomes MAX_RETRIES =
      (false,
       { st with lastError := some (putErrText (outcomes 3)),
                 totalErrors := st.totalErrors + 1 },
       failTrace 1 3) := by
    show uploadAttempts outcomes fileSize 1 3 st = _
    rw [uploadAttempts_all_fail outcomes fileSize hfail 3 1 st (by omega)]
  refine ⟨by rw [hrun], by rw [hrun], by simp [hrun], by simp [hrun],
    by rw [hrun]; rfl, by rw [hrun]; rfl, ?_, ?_⟩
  · intro g
    show (putsOf (uploadAttempts g fileSize 1 MAX_RETRIES st).2.2).length ≤ MAX_RETRIES
    exact putsOf_uploadAttempts_le g fileSize MAX_RETRIES 1 st
  · intro f g hfg
    show uploadObs (uploadAttempts f fileSize 1 MAX_RETRIES st)
      = uploadObs (uploadAttempts g fileSize 1 MAX_RETRIES st)
    exact uploadAttempts_obs_congr fileSize f g hfg MAX_RETRIES 1 st st rfl rfl rfl

/-- Witness for C6 (amended) on a concrete always-HTTP-500 run. -/
theorem claim_C6_presigned_retry_witness :
    (upload_file UploaderStats.init true 100 (fun _ => .resp 500) MAX_RETRIES).1
      = false ∧
    (upload_file UploaderStats.init true 100
      (fun _ => .resp 500) MAX_RETRIES).2.1.totalErrors
      = UploaderStats.init.totalErrors + 1 ∧
    (upload_file UploaderStats.init true 100
      (fun _ => .resp 500) MAX_RETRIES).2.1.totalFilesUploaded
      = UploaderStats.init.totalFilesUploaded ∧
    (upload_file UploaderStats.init true 100
      (fun _ => .resp 500) MAX_RETRIES).2.1.totalBytesUploaded
      = UploaderStats.init.totalBytesUploaded ∧
    putsOf (upload_file UploaderStats.init true 100
      (fun _ => .resp 500) MAX_RETRIES).2.2 = [1, 2, 3] ∧
    sleepsOf (upload_file UploaderStats.init true 100
      (fun _ => .resp 500) MAX_RETRIES).2.2 = [1, 2] ∧
    (∀ g : Nat → PutOutcome,
      (putsOf (upload_file UploaderStats.init true 100 g MAX_RETRIES).2.2).length
        ≤ MAX_RETRIES) ∧
    (∀ f g : Nat → PutOutcome, (∀ i, putFails (f i) = putFails (g i)) →
      uploadObs (upload_file UploaderStats.init true 100 f MAX_RETRIES)
        = uploadObs (upload_file UploaderStats.init true 100 g MAX_RETRIES)) :=
  claim_C6_presigned_retry UploaderStats.init 100 (fun _ => .resp 500)
    (fun _ => rfl)

/- ============================================================
   Progress Ledger.  The module `progress.py` is imported by
   `pipeline _old.py` but absent from the repository snapshot, so the
   tracker is modelled from the specification (§3, §4.5).
   ============================================================ -/

/-- Batch lifecycle states actually reached through the tracker calls made by
`pipeline _old.py` (spec §3: `pending → … → {confirmed | failed}`). -/
inductive BatchStatus where
  | pending
  | compressed
  | confirmed
  | failed
deriving DecidableEq

/-- Modelled from the spec: the per-batch record of `progress.py`
(`BatchInfo`), keyed by its monotonically increasing id and carrying the
ordered frame list, raw/compressed sizes, lifecycle state, storage key and
upload duration. -/
structure BatchInfo where
  batchId : Nat
  frames : List Nat
  status : BatchStatus
  rawSize : Nat
  compressedSize : Nat
  r2Key : Option String
  duration : ℚ
deriving DecidableEq

/-- Modelled from the spec: the shared `ProgressTracker` of `progress.py`:
total expected frames, produced (baked) set, secured set, batch records and
the next batch id. -/
structure ProgressTracker where
  totalFrames : Nat
  bakedFrames : Finset Nat
  securedFrames : Finset Nat
  batches : List BatchInfo
  nextBatchId : Nat
deriving DecidableEq

/-- Modelled from the spec: tracker construction; the secured set may be
seeded from a prior run, the produced set starts empty. -/
def ProgressTracker.init (total : Nat) (alreadySecured : Finset Nat) :
    ProgressTracker :=
  ⟨total, ∅, alreadySecured, [], 0⟩

/-- Modelled from the spec: `register_baked_frame` marks a frame produced. -/
def ProgressTracker.register_baked_frame (p : ProgressTracker) (f : Nat) :
    ProgressTracker :=
  { p with bakedFrames := insert f p.bakedFrames }

/-- Modelled from the spec: `create_batch` allocates the next id and records a
pending batch covering the given frames. -/
def ProgressTracker.create_batch (p : ProgressTracker) (frames : List Nat) :
    BatchInfo × ProgressTracker :=
  let b : BatchInfo := ⟨p.nextBatchId, frames, .pending, 0, 0, none, 0⟩
  (b, { p with batches := p.batches ++ [b], nextBatchId := p.nextBatchId + 1 })

/-- Modelled from the spec: `register_compressed` records the measured sizes
of a batch. -/
def ProgressTracker.register_compressed (p : ProgressTracker)
    (id csize rsize : Nat) : ProgressTracker :=
  { p with
      batches := p.batches.map fun b =>
        if b.batchId = id then
          { b with status := .compressed, compressedSize := csize, rawSize := rsize }
        else b }

/-- The frame list of the batch record with the given id. -/
def ProgressTracker.framesOfBatch (p : ProgressTracker) (id : Nat) : List Nat :=
  match p.batches.find? (fun b => b.batchId = id) with
  | some b => b.frames
  | none => []

/-- Modelled from the spec: `register_secured` moves the batch to `confirmed`,
adds its frames to the secured set (set-union semantics) and records the key
and upload duration. -/
def ProgressTracker.register_secured (p : ProgressTracker) (id : Nat)
    (key : String) (dur : ℚ) : ProgressTracker :=
  { p with
      securedFrames := p.securedFrames ∪ (p.framesOfBatch id).toFinset,
      batches := p.batches.map fun b =>
        if b.batchId = id then
          { b with status := .confirmed, r2Key := some key, duration := dur }
        else b }

/-- Modelled from the spec: `register_batch_failed` marks the batch failed
(terminal; its frames are not retried this run). -/
def ProgressTracker.register_batch_failed (p : ProgressTracker) (id : Nat) :
    ProgressTracker :=
  { p with
      batches := p.batches.map fun b =>
        if b.batchId = id then { b with status := .failed } else b }

/-- The confirmed batch records. -/
def ProgressTracker.confirmedBatches (p : ProgressTracker) : List BatchInfo :=
  p.batches.filter (fun b => b.status = .confirmed)

/-- Modelled from the spec: rolling upload speed in bytes/second, derived
only from confirmed batches (payload size over upload duration); zero while
no batch is confirmed. -/
def ProgressTracker.upload_speed_bps (p : ProgressTracker) : ℚ :=
  let c := p.confirmedBatches
  let td : ℚ := (c.map (fun b => b.duration)).sum
  if td ≤ 0 then 0
  else ((c.map (fun b => (b.compressedSize : ℚ))).sum) / td

/-- Modelled from the spec: rolling compression ratio (raw over compressed),
derived only from confirmed batches; zero while no batch is confirmed. -/
def ProgressTracker.compression_ratio (p : ProgressTracker) : ℚ :=
  let c := p.confirmedBatches
  let tc : ℚ := (c.map (fun b => (b.compressedSize : ℚ))).sum
  if tc ≤ 0 then 0
  else ((c.map (fun b => (b.rawSize : ℚ))).sum) / tc

/- ============================================================
   Adaptive batch sizing (`pipeline _old.py`,
   `BatchCompressor.update_batch_size`)
   ============================================================ -/

/-- The `Config` constants consumed by the pipeline.  The snapshot's
`config.py` does not define them, so they are carried as parameters. -/
structure BatchConfig where
  defaultBatchSize : Nat
  minBatchSize : Nat
  maxBatchSize : Nat
  targetUploadTime : ℚ
  minTrainingSamples : Nat
  multipartThreshold : Nat
  multipartChunk : Nat
deriving DecidableEq

/-- Python `int()` on a rational: truncation toward zero. -/
def pyInt (q : ℚ) : Int :=
  if 0 ≤ q then ⌊q⌋ else ⌈q⌉

/-- The confirmed batches covering at least one frame, as filtered by
`update_batch_size`. -/
def ProgressTracker.nonemptyConfirmed (p : ProgressTracker) : List BatchInfo :=
  p.batches.filter (fun b => b.status = .confirmed ∧ 0 < b.frames.length)

/-- `sum(raw_size / len(frames) for confirmed) / len(confirmed)`. -/
def ProgressTracker.avgRawPerFrame (p : ProgressTracker) : ℚ :=
  ((p.nonemptyConfirmed.map
      (fun b => (b.rawSize : ℚ) / (b.frames.length : ℚ))).sum) /
    (p.nonemptyConfirmed.length : ℚ)

/-- `BatchCompressor.update_batch_size`: recompute the adaptive batch size
from the ledger's rolling speed and ratio, returning the (possibly unchanged)
`_batch_size`. -/
def update_batch_size (cfg : BatchConfig) (p : ProgressTracker) (cur : Nat) :
    Nat :=
  let speed := p.upload_speed_bps
  let ratio := p.compression_ratio
  if speed ≤ 0 ∨ ratio ≤ 0 then cur
  else if p.nonemptyConfirmed.isEmpty then cur
  else
    let avg := p.avgRawPerFrame
    if avg ≤ 0 then cur
    else
      let compressedPerFrame := avg / ratio
      let optimal := speed * cfg.targetUploadTime / compressedPerFrame
      (max (cfg.minBatchSize : Int) (min (cfg.maxBatchSize : Int) (pyInt optimal))).toNat

/-- C4: the adaptive batch-size update is a no-op while no batch is confirmed
(rolling speed is then zero, i.e. not yet known), and otherwise, with rolling
speed `S` and ratio `R`, it sets the target to
`clamp(int(S * target_upload_seconds * R / avg_raw_per_frame), MIN, MAX)`,
where the average raw bytes per frame ranges over all confirmed non-empty
batches (the source's `S*T / (avg/R)` equals the claim's `S*T*R / avg`). -/
theorem claim_C4_adaptive_batch_size (cfg : BatchConfig) (p : ProgressTracker)
    (cur : Nat) :
    (p.confirmedBatches = [] → update_batch_size cfg p cur = cur) ∧
    (∀ S R : ℚ, p.upload_speed_bps = S → p.compression_ratio = R →
      0 < S → 0 < R → p.nonemptyConfirmed ≠ [] → 0 < p.avgRawPerFrame →
      update_batch_size cfg p cur =
        (max (cfg.minBatchSize : Int) (min (cfg.maxBatchSize : Int)
          (pyInt (S * cfg.targetUploadTime * R / p.avgRawPerFrame)))).toNat) := by
  constructor
  · intro hc
    have hs : p.upload_speed_bps = 0 := by
      unfold ProgressTracker.upload_speed_bps
      rw [hc]
      simp
    unfold update_batch_size
    rw [hs]
    simp
  · intro S R hS hR hposS hposR hne havg
    unfold update_batch_size
    rw [hS, hR]
    rw [if_neg (by push_neg; constructor <;> linarith)]
    rw [if_neg (by simpa [List.isEmpty_iff] using hne)]
    rw [if_neg (by push_neg; exact havg)]
    have harg : S * cfg.targetUploadTime / (p.avgRawPerFrame / R)
        = S * cfg.targetUploadTime * R / p.avgRawPerFrame := by
      rw [div_div_eq_mul_div]
    simp only [harg]

/-- Concrete tracker for the C4 witness: one confirmed batch of two frames,
200 raw bytes compressed to 100, uploaded in 2 s. -/
def c4Tracker : ProgressTracker :=
  ⟨250, ∅, ∅, [⟨0, [1, 2], .confirmed, 200, 100, some "k", 2⟩], 1⟩

/-- Concrete configuration for the C4 witness. -/
def c4Cfg : BatchConfig := ⟨50, 2, 10, 4, 8, 1000000, 65536⟩

/-- Witness for C4: speed 50 B/s, ratio 2, average 100 raw bytes per frame
give `clamp(int(50*4*2/100)) = 4`. -/
theorem claim_C4_adaptive_batch_size_witness :
    update_batch_size c4Cfg c4Tracker 7 =
      (max ((c4Cfg.minBatchSize : Int)) (min (c4Cfg.maxBatchSize : Int)
        (pyInt ((50 : ℚ) * c4Cfg.targetUploadTime * 2 / c4Tracker.avgRawPerFrame)))).toNat := by
  have hcb : c4Tracker.confirmedBatches
      = [⟨0, [1, 2], .confirmed, 200, 100, some "k", 2⟩] := by
    simp +decide [ProgressTracker.confirmedBatches, c4Tracker]
  have hnc : c4Tracker.nonemptyConfirmed
      = [⟨0, [1, 2], .confirmed, 200, 100, some "k", 2⟩] := by
    simp +decide [ProgressTracker.nonemptyConfirmed, c4Tracker]
  have hS : c4Tracker.upload_speed_bps = 50 := by
    simp [ProgressTracker.upload_speed_bps, hcb]
    norm_num
  have hR : c4Tracker.compression_ratio = 2 := by
    simp [ProgressTracker.compression_ratio, hcb]
    norm_num
  have havg : c4Tracker.avgRawPerFrame = 100 := by
    simp [ProgressTracker.avgRawPerFrame, hnc]
    norm_num
  exact (claim_C4_adaptive_batch_size c4Cfg c4Tracker 7).2 50 2 hS hR
    (by norm_num) (by norm_num) (by rw [hnc]; simp) (by rw [havg]; norm_num)

/- ============================================================
   Pipeline state and operations (`pipeline _old.py`)
   ============================================================ -/

/-- Modelled from the spec: the shared `ZstdDictManager` of the missing
`compression.py`: whether the dictionary has been trained and whether its
byte blob is non-empty. -/
structure DictManager where
  isTrained : Bool
  hasBytes : Bool
deriving DecidableEq

/-- The `BatchCompressor`-owned mutable state. -/
structure CompressorState where
  pendingFrames : List String
  pendingFrameNumbers : List Nat
  dictTrainingSamples : List String
  dictTrained : Bool
  batchSize : Nat
deriving DecidableEq

/-- The pipeline's shared state: the ledger, the watcher's seen-set and the
pre-seeded secured set, the two inter-stage queues, the compressor state and
the dictionary manager.  A batch-queue item is `(batch_id, payload size,
frame list)`, standing for the `(batch_id, compressed_data, frame_numbers)`
tuple of the source. -/
structure PipelineState where
  tracker : ProgressTracker
  seenFiles : Finset String
  alreadySecured : Finset Nat
  frameQueue : List String
  comp : CompressorState
  batchQueue : List (Nat × Nat × List Nat)
  dict : DictManager
deriving DecidableEq

/-- `Pipeline.__init__` for a run: empty queues, tracker seeded with the
externally supplied already-secured frames. -/
def pipelineInit (cfg : BatchConfig) (alreadySecured : Finset Nat) (total : Nat) :
    PipelineState :=
  ⟨ProgressTracker.init total alreadySecured, ∅, alreadySecured, [],
   ⟨[], [], [], false, cfg.defaultBatchSize⟩, [], ⟨false, false⟩⟩

/-- Log / channel events of the pipeline stages.  `compressStart` carries the
frame list of the batch being compressed (the source logs a preview of it),
`compressFail` the failed batch's id. -/
inductive PipeEv where
  | compressStart (batchId : Nat) (frames : List Nat)
  | compressDone (batchId : Nat) (rawSize compressedSize : Nat)
  | compressFail (batchId : Nat)
  | uploadDone (batchId : Nat) (key : String)
  | uploadFail (batchId : Nat)
  | notifySecured (batchId : Nat) (key : String) (frames : List Nat)
deriving DecidableEq

/-- `FrameWatcher._process_file`: dedup on the absolute path, register the
extracted frame as produced, skip enqueue for already-secured frames, gate
live events on write-stability (`stable` is the `_wait_stable` outcome), then
enqueue. -/
def process_file (st : PipelineState) (path : String) (initial stable : Bool) :
    PipelineState :=
  if path ∈ st.seenFiles then st
  else
    let st1 := { st with seenFiles := insert path st.seenFiles }
    match extract_frame_number path with
    | some f =>
        let st2 := { st1 with tracker := st1.tracker.register_baked_frame f }
        if f ∈ st.alreadySecured then st2
        else if initial ∨ stable then
          { st2 with frameQueue := st2.frameQueue ++ [path] }
        else st2
    | none =>
        if initial ∨ stable then
          { st1 with frameQueue := st1.frameQueue ++ [path] }
        else st1

/-- One `frame_queue.get` plus `BatchCompressor._add_frame`: append the path
to the pending list, its extracted number to the pending numbers, and retain
it as a dictionary training sample while fewer than 30 are held. -/
def add_frame (st : PipelineState) : PipelineState :=
  match st.frameQueue with
  | [] => st
  | path :: rest =>
      { st with
          frameQueue := rest,
          comp :=
            { st.comp with
                pendingFrames := st.comp.pendingFrames ++ [path],
                pendingFrameNumbers :=
                  match extract_frame_number path with
                  | some f => st.comp.pendingFrameNumbers ++ [f]
                  | none => st.comp.pendingFrameNumbers,
                dictTrainingSamples :=
                  if !st.comp.dictTrained &&
                      st.comp.dictTrainingSamples.length < 30 then
                    st.comp.dictTrainingSamples ++ [path]
                  else st.comp.dictTrainingSamples } }

/-- The outcome of `compress_batch` of the missing `compression.py`
(modelled from the spec): the compressed payload size and raw total size, or
an exception. -/
inductive CompressOutcome where
  | ok (compressedSize rawSize : Nat)
  | err
deriving DecidableEq

/-- Whether `_compress_batch` trains the dictionary on this call: not yet
trained, enough training samples retained, and the training call itself
succeeded. -/
def trainsNow (cfg : BatchConfig) (st : PipelineState) (trainOk : Bool) : Bool :=
  (!st.comp.dictTrained &&
    decide (cfg.minTrainingSamples ≤ st.comp.dictTrainingSamples.length)) && trainOk

/-- `BatchCompressor._compress_batch`: train the dictionary once when enough
samples are held, snapshot and clear the pending lists, allocate a batch id,
then either hand the compressed payload to the upload queue and rerun the
adaptive sizing, or mark the batch failed and drop the files.  `trainOk` is
the dictionary-training result, `outcome` the compression result. -/
def compress_batch (cfg : BatchConfig) (st : PipelineState) (trainOk : Bool)
    (outcome : CompressOutcome) : PipelineState × List PipeEv :=
  if st.comp.pendingFrames.isEmpty then (st, [])
  else
    match outcome with
    | .ok csize rsize =>
        ({ st with
             tracker :=
               ((st.tracker.create_batch st.comp.pendingFrameNumbers).2).register_compressed
                 st.tracker.nextBatchId csize rsize,
             comp :=
               { pendingFrames := [],
                 pendingFrameNumbers := [],
                 dictTrainingSamples := st.comp.dictTrainingSamples,
                 dictTrained := st.comp.dictTrained || trainsNow cfg st trainOk,
                 batchSize :=
                   update_batch_size cfg
                     (((st.tracker.create_batch st.comp.pendingFrameNumbers).2).register_compressed
                       st.tracker.nextBatchId csize rsize)
                     st.comp.batchSize },
             batchQueue :=
               st.batchQueue ++ [(st.tracker.nextBatchId, csize, st.comp.pendingFrameNumbers)],
             dict :=
               if trainsNow cfg st trainOk then
                 { st.dict with isTrained := true, hasBytes := true }
               else st.dict },
         [.compressStart st.tracker.nextBatchId st.comp.pendingFrameNumbers,
          .compressDone st.tracker.nextBatchId rsize csize])
    | .err =>
        ({ st with
             tracker :=
               ((st.tracker.create_batch st.comp.pendingFrameNumbers).2).register_batch_failed
                 st.tracker.nextBatchId,
             comp :=
               { pendingFrames := [],
                 pendingFrameNumbers := [],
                 dictTrainingSamples := st.comp.dictTrainingSamples,
                 dictTrained := st.comp.dictTrained || trainsNow cfg st trainOk,
                 batchSize := st.comp.batchSize },
             dict :=
               if trainsNow cfg st trainOk then
                 { st.dict with isTrained := true, hasBytes := true }
               else st.dict },
         [.compressStart st.tracker.nextBatchId st.comp.pendingFrameNumbers,
          .compressFail st.tracker.nextBatchId])

/- ============================================================
   Batch uploader (`pipeline _old.py`, `BatchUploader`)
   ============================================================ -/

/-- Object-storage requests issued by the uploader. -/
inductive S3Ev where
  | putObject (key : String) (size : Nat) (metaBatchId : Nat)
      (metaFrames : List Nat)
  | createMultipart (key : String)
  | uploadPart (key : String) (partNumber : Nat) (size : Nat)
  | completeMultipart (key : String) (partNumbers : List Nat)
  | abortMultipart (key : String)
  | putDict (key : String)
deriving DecidableEq

/-- The deterministic storage key of a batch
(`f"{prefix}batch_{batch_id:04d}.tar.zst"`, ids zero-padded to four
digits). -/
def batchKey (cachePre : String) (batchId : Nat) : String :=
  cachePre ++ "batch_" ++ String.mk (pad4 batchId) ++ ".tar.zst"

/-- The `while offset < len(data)` part-upload loop of `_multipart_upload`:
chunks of the configured part size, sequential part numbers, stopping at the
first failed `upload_part` (the raised error aborts the loop).  `remaining`
is `len(data) - offset`.  A part size of zero is read as one to keep the
offset advancing, matching any meaningful configuration. -/
def uploadParts (csz : Nat) (key : String) (partOk : Nat → Bool) :
    (remaining partNumber : Nat) → Bool × List S3Ev
  | 0, _ => (true, [])
  | r + 1, pn =>
      let step := max csz 1
      let chunkSize := min (r + 1) step
      if partOk pn then
        let rest := uploadParts csz key partOk (r + 1 - step) (pn + 1)
        (rest.1, .uploadPart key pn chunkSize :: rest.2)
      else (false, [.uploadPart key pn chunkSize])
  termination_by r _ => r
  decreasing_by simp_wf

/-- The accumulated `parts` list handed to `complete_multipart_upload`: the
part numbers of the parts uploaded so far, in order. -/
def partNumbersOf (evs : List S3Ev) : List Nat :=
  evs.filterMap fun e => match e with | .uploadPart _ pn _ => some pn | _ => none

/-- The sizes of the uploaded parts, in order. -/
def partSizesOf (evs : List S3Ev) : List Nat :=
  evs.filterMap fun e => match e with | .uploadPart _ _ s => some s | _ => none

/-- `BatchUploader._multipart_upload`: create the multipart transaction,
upload sequential parts, complete only when every part succeeded; on any part
failure abort the transaction before re-raising. -/
def multipart_upload (cfg : BatchConfig) (key : String) (dataLen : Nat)
    (partOk : Nat → Bool) : Bool × List S3Ev :=
  if (uploadParts cfg.multipartChunk key partOk dataLen 1).1 then
    (true, .createMultipart key ::
      (uploadParts cfg.multipartChunk key partOk dataLen 1).2 ++
      [.completeMultipart key
        (partNumbersOf (uploadParts cfg.multipartChunk key partOk dataLen 1).2)])
  else
    (false, .createMultipart key ::
      (uploadParts cfg.multipartChunk key partOk dataLen 1).2 ++
      [.abortMultipart key])

/-- One `batch_queue.get` plus `BatchUploader._upload_batch`: multipart
upload when the payload exceeds the threshold, otherwise a single
`put_object` carrying the batch id and frame list as metadata; on success the
ledger confirms the batch and a `PROGRESS_SECURED` notification goes out, on
any failure the batch is marked failed.  `putOk` is the single-put outcome,
`partOk` the per-part outcomes, `dur` the measured upload duration. -/
def upload_batch (cfg : BatchConfig) (cachePre : String) (st : PipelineState)
    (putOk : Bool) (partOk : Nat → Bool) (dur : ℚ) :
    PipelineState × List PipeEv × List S3Ev :=
  match st.batchQueue with
  | [] => (st, [], [])
  | (batchId, dataLen, frameNumbers) :: rest =>
      if cfg.multipartThreshold < dataLen then
        if (multipart_upload cfg (batchKey cachePre batchId) dataLen partOk).1 then
          ({ st with
               batchQueue := rest,
               tracker := st.tracker.register_secured batchId
                 (batchKey cachePre batchId) dur },
           [.uploadDone batchId (batchKey cachePre batchId),
            .notifySecured batchId (batchKey cachePre batchId) frameNumbers],
           (multipart_upload cfg (batchKey cachePre batchId) dataLen partOk).2)
        else
          ({ st with
               batchQueue := rest,
               tracker := st.tracker.register_batch_failed batchId },
           [.uploadFail batchId],
           (multipart_upload cfg (batchKey cachePre batchId) dataLen partOk).2)
      else
        if putOk then
          ({ st with
               batchQueue := rest,
               tracker := st.tracker.register_secured batchId
                 (batchKey cachePre batchId) dur },
           [.uploadDone batchId (batchKey cachePre batchId),
            .notifySecured batchId (batchKey cachePre batchId) frameNumbers],
           [.putObject (batchKey cachePre batchId) dataLen batchId frameNumbers])
        else
          ({ st with
               batchQueue := rest,
               tracker := st.tracker.register_batch_failed batchId },
           [.uploadFail batchId],
           [.putObject (batchKey cachePre batchId) dataLen batchId frameNumbers])

/- ============================================================
   The pipeline as a transition system, and the secured ⊆ produced
   invariant (C1)
   ============================================================ -/

/-- One observable operation of a pipeline run: a watcher file event (initial
scan or live, with its stability outcome), the compressor taking one queued
file, one batch compression (triggered by the size threshold, by shutdown, or
by `flush()`), or one batch upload. -/
inductive PipeStep (cfg : BatchConfig) (pre : String) :
    PipelineState → PipelineState → Prop where
  | processFile (st : PipelineState) (path : String) (initial stable : Bool) :
      PipeStep cfg pre st (process_file st path initial stable)
  | addFrame (st : PipelineState) : PipeStep cfg pre st (add_frame st)
  | compress (st : PipelineState) (trainOk : Bool) (outcome : CompressOutcome) :
      PipeStep cfg pre st (compress_batch cfg st trainOk outcome).1
  | upload (st : PipelineState) (putOk : Bool) (partOk : Nat → Bool) (dur : ℚ) :
      PipeStep cfg pre st (upload_batch cfg pre st putOk partOk dur).1

/-- The inductive invariant behind secured ⊆ produced: every frame number
sitting in the ledger's secured set came either from the pre-seeded set or
from a produced frame, and every frame number in flight (file queue, pending
list, batch queue, batch records) has already been registered produced. -/
def PipeInv (st : PipelineState) : Prop :=
  st.tracker.securedFrames ⊆ st.tracker.bakedFrames ∪ st.alreadySecured ∧
  (∀ p ∈ st.frameQueue, ∀ f, extract_frame_number p = some f →
      f ∈ st.tracker.bakedFrames) ∧
  (∀ f ∈ st.comp.pendingFrameNumbers, f ∈ st.tracker.bakedFrames) ∧
  (∀ t ∈ st.batchQueue, ∀ f ∈ t.2.2, f ∈ st.tracker.bakedFrames) ∧
  (∀ b ∈ st.tracker.batches, ∀ f ∈ b.frames, f ∈ st.tracker.bakedFrames)

theorem inv_process_file (st : PipelineState) (path : String) (i s : Bool)
    (h : PipeInv st) : PipeInv (process_file st path i s) := by
  obtain ⟨h1, h2, h3, h4, h5⟩ := h
  unfold process_file
  split
  · exact ⟨h1, h2, h3, h4, h5⟩
  · split
    · rename_i f hx
      split
      · exact ⟨fun x hxm => by
            rcases Finset.mem_union.mp (h1 hxm) with hb | ha
            · exact Finset.mem_union_left _ (Finset.mem_insert_of_mem hb)
            · exact Finset.mem_union_right _ ha,
          fun p hp f' hf' => Finset.mem_insert_of_mem (h2 p hp f' hf'),
          fun f' hf' => Finset.mem_insert_of_mem (h3 f' hf'),
          fun t ht f' hf' => Finset.mem_insert_of_mem (h4 t ht f' hf'),
          fun b hb f' hf' => Finset.mem_insert_of_mem (h5 b hb f' hf')⟩
      · split
        · refine ⟨fun x hxm => by
              rcases Finset.mem_union.mp (h1 hxm) with hb | ha
              · exact Finset.mem_union_left _ (Finset.mem_insert_of_mem hb)
              · exact Finset.mem_union_right _ ha,
            ?_,
            fun f' hf' => Finset.mem_insert_of_mem (h3 f' hf'),
            fun t ht f' hf' => Finset.mem_insert_of_mem (h4 t ht f' hf'),
            fun b hb f' hf' => Finset.mem_insert_of_mem (h5 b hb f' hf')⟩
          intro p hp f' hf'
          rcases List.mem_append.mp hp with hp | hp
          · exact Finset.mem_insert_of_mem (h2 p hp f' hf')
          · rcases List.mem_singleton.mp hp with rfl
            rw [hx] at hf'
            rcases Option.some.inj hf' with rfl
            exact Finset.mem_insert_self _ _
        · exact ⟨fun x hxm => by
              rcases Finset.mem_union.mp (h1 hxm) with hb | ha
              · exact Finset.mem_union_left _ (Finset.mem_insert_of_mem hb)
              · exact Finset.mem_union_right _ ha,
            fun p hp f' hf' => Finset.mem_insert_of_mem (h2 p hp f' hf'),
            fun f' hf' => Finset.mem_insert_of_mem (h3 f' hf'),
            fun t ht f' hf' => Finset.mem_insert_of_mem (h4 t ht f' hf'),
            fun b hb f' hf' => Finset.mem_insert_of_mem (h5 b hb f' hf')⟩
    · rename_i hx
      split
      · refine ⟨h1, ?_, h3, h4, h5⟩
        intro p hp f' hf'
        rcases List.mem_append.mp hp with hp | hp
        · exact h2 p hp f' hf'
        · rcases List.mem_singleton.mp hp with rfl
          rw [hx] at hf'
          exact absurd hf' (Option.noConfusion)
      · exact ⟨h1, h2, h3, h4, h5⟩

theorem inv_add_frame (st : PipelineState) (h : PipeInv st) :
    PipeInv (add_frame st) := by
  obtain ⟨h1, h2, h3, h4, h5⟩ := h
  unfold add_frame
  split
  · exact ⟨h1, h2, h3, h4, h5⟩
  · rename_i path rest hq
    have h2' : ∀ p ∈ rest, ∀ f, extract_frame_number p = some f →
        f ∈ st.tracker.bakedFrames := by
      intro p hp
      exact h2 p (by rw [hq]; exact List.mem_cons_of_mem _ hp)
    have hpath : ∀ f, extract_frame_number path = some f →
        f ∈ st.tracker.bakedFrames :=
      h2 path (by rw [hq]; exact List.mem_cons_self _ _)
    refine ⟨h1, h2', ?_, h4, h5⟩
    intro f' hf'
    cases hx : extract_frame_number path with
    | some f =>
        rw [hx] at hf'
        simp only [] at hf'
        rcases List.mem_append.mp hf' with hf' | hf'
        · exact h3 f' hf'
        · rcases List.mem_singleton.mp hf' with rfl
          exact hpath f' hx
    | none =>
        rw [hx] at hf'
        simp only [] at hf'
        exact h3 f' hf'

theorem batches_map_frames_mem {baked : Finset Nat} (bs : List BatchInfo)
    (g : BatchInfo → BatchInfo) (hg : ∀ b, (g b).frames = b.frames)
    (h : ∀ b ∈ bs, ∀ f ∈ b.frames, f ∈ baked) :
    ∀ b ∈ bs.map g, ∀ f ∈ b.frames, f ∈ baked := by
  intro b hb f hf
  rcases List.mem_map.mp hb with ⟨b0, hb0, rfl⟩
  rw [hg b0] at hf
  exact h b0 hb0 f hf

theorem inv_compress (cfg : BatchConfig) (st : PipelineState) (trainOk : Bool)
    (outcome : CompressOutcome) (h : PipeInv st) :
    PipeInv (compress_batch cfg st trainOk outcome).1 := by
  obtain ⟨h1, h2, h3, h4, h5⟩ := h
  have hnew : ∀ b ∈ st.tracker.batches ++
      [⟨st.tracker.nextBatchId, st.comp.pendingFrameNumbers,
        BatchStatus.pending, 0, 0, none, 0⟩],
      ∀ f ∈ b.frames, f ∈ st.tracker.bakedFrames := by
    intro b hb f hf
    rcases List.mem_append.mp hb with hb | hb
    · exact h5 b hb f hf
    · rcases List.mem_singleton.mp hb with rfl
      exact h3 f hf
  unfold compress_batch
  split
  · exact ⟨h1, h2, h3, h4, h5⟩
  · split
    · -- compression succeeded
      refine ⟨h1, h2, fun f' hf' => absurd hf' (List.not_mem_nil f'), ?_, ?_⟩
      · intro t ht f' hf'
        rcases List.mem_append.mp ht with ht | ht
        · exact h4 t ht f' hf'
        · rcases List.mem_singleton.mp ht with rfl
          exact h3 f' hf'
      · exact batches_map_frames_mem _ _ (fun b => by split <;> rfl) hnew
    · -- compression failed
      refine ⟨h1, h2, fun f' hf' => absurd hf' (List.not_mem_nil f'), h4, ?_⟩
      exact batches_map_frames_mem _ _ (fun b => by split <;> rfl) hnew

theorem framesOfBatch_mem {p : ProgressTracker} {id : Nat} {f : Nat}
    (hf : f ∈ p.framesOfBatch id) : ∃ b ∈ p.batches, f ∈ b.frames := by
  unfold ProgressTracker.framesOfBatch at hf
  split at hf
  · rename_i b hb
    exact ⟨b, List.mem_of_find?_eq_some hb, hf⟩
  · exact absurd hf (List.not_mem_nil f)

theorem inv_upload (cfg : BatchConfig) (pre : String) (st : PipelineState)
    (putOk : Bool) (partOk : Nat → Bool) (dur : ℚ) (h : PipeInv st) :
    PipeInv (upload_batch cfg pre st putOk partOk dur).1 := by
  obtain ⟨h1, h2, h3, h4, h5⟩ := h
  unfold upload_batch
  split
  · exact ⟨h1, h2, h3, h4, h5⟩
  · rename_i batchId dataLen frameNumbers rest hq
    have h4' : ∀ t ∈ rest, ∀ f ∈ t.2.2, f ∈ st.tracker.bakedFrames := by
      intro t ht
      exact h4 t (by rw [hq]; exact List.mem_cons_of_mem _ ht)
    have hsec : st.tracker.securedFrames ∪
          (st.tracker.framesOfBatch batchId).toFinset ⊆
        st.tracker.bakedFrames ∪ st.alreadySecured := by
      intro x hx
      rcases Finset.mem_union.mp hx with hx | hx
      · exact h1 hx
      · rcases framesOfBatch_mem (List.mem_toFinset.mp hx) with ⟨b, hb, hfb⟩
        exact Finset.mem_union_left _ (h5 b hb x hfb)
    have hconf : ∀ b ∈ st.tracker.batches.map (fun b =>
          if b.batchId = batchId then
            { b with status := BatchStatus.confirmed,
                     r2Key := some (batchKey pre batchId), duration := dur }
          else b),
        ∀ f ∈ b.frames, f ∈ st.tracker.bakedFrames :=
      batches_map_frames_mem _ _ (fun b => by split <;> rfl) h5
    have hfailm : ∀ b ∈ st.tracker.batches.map (fun b =>
          if b.batchId = batchId then { b with status := BatchStatus.failed }
          else b),
        ∀ f ∈ b.frames, f ∈ st.tracker.bakedFrames :=
      batches_map_frames_mem _ _ (fun b => by split <;> rfl) h5
    split
    · split
      · exact ⟨hsec, h2, h3, h4', hconf⟩
      · exact ⟨h1, h2, h3, h4', hfailm⟩
    · split
      · exact ⟨hsec, h2, h3, h4', hconf⟩
      · exact ⟨h1, h2, h3, h4', hfailm⟩

theorem process_file_already (st : PipelineState) (path : String) (i s : Bool) :
    (process_file st path i s).alreadySecured = st.alreadySecured := by
  unfold process_file
  split
  · rfl
  · split
    · split
      · rfl
      · split <;> rfl
    · split <;> rfl

theorem add_frame_already (st : PipelineState) :
    (add_frame st).alreadySecured = st.alreadySecured := by
  unfold add_frame
  split <;> rfl

theorem compress_batch_already (cfg : BatchConfig) (st : PipelineState)
    (trainOk : Bool) (outcome : CompressOutcome) :
    (compress_batch cfg st trainOk outcome).1.alreadySecured = st.alreadySecured := by
  unfold compress_batch
  split
  · rfl
  · split <;> rfl

theorem upload_batch_already (cfg : BatchConfig) (pre : String)
    (st : PipelineState) (putOk : Bool) (partOk : Nat → Bool) (dur : ℚ) :
    (upload_batch cfg pre st putOk partOk dur).1.alreadySecured
      = st.alreadySecured := by
  unfold upload_batch
  split
  · rfl
  · split
    · split <;> rfl
    · split <;> rfl

theorem step_already {cfg : BatchConfig} {pre : String}
    {s1 s2 : PipelineState} (h : PipeStep cfg pre s1 s2) :
    s2.alreadySecured = s1.alreadySecured := by
  cases h with
  | processFile path i s => exact process_file_already s1 path i s
  | addFrame => exact add_frame_already s1
  | compress trainOk outcome => exact compress_batch_already cfg s1 trainOk outcome
  | upload putOk partOk dur => exact upload_batch_already cfg pre s1 putOk partOk dur

theorem step_inv {cfg : BatchConfig} {pre : String} {s1 s2 : PipelineState}
    (h : PipeStep cfg pre s1 s2) (hi : PipeInv s1) : PipeInv s2 := by
  cases h with
  | processFile path i s => exact inv_process_file s1 path i s hi
  | addFrame => exact inv_add_frame s1 hi
  | compress trainOk outcome => exact inv_compress cfg s1 trainOk outcome hi
  | upload putOk partOk dur => exact inv_upload cfg pre s1 putOk partOk dur hi

/-- C1: in a fresh run (no pre-seeded secured frames), every state reachable
through watcher, compressor and uploader operations satisfies
secured ⊆ produced: the only operation that grows the secured set is batch
confirmation, the confirmed frames come from the batch's ledger record, and
every frame that enters a batch was registered produced by
`FrameWatcher._process_file` before its file was enqueued. -/
theorem claim_C1_secured_subset_produced (cfg : BatchConfig) (pre : String)
    (total : Nat) (st : PipelineState)
    (h : Relation.ReflTransGen (PipeStep cfg pre) (pipelineInit cfg ∅ total) st) :
    st.tracker.securedFrames ⊆ st.tracker.bakedFrames := by
  have key : PipeInv st ∧ st.alreadySecured = ∅ := by
    induction h with
    | refl =>
        refine ⟨⟨?_, ?_, ?_, ?_, ?_⟩, rfl⟩
        · intro x hx
          exact absurd hx (Finset.not_mem_empty x)
        · intro p hp
          exact absurd hp (List.not_mem_nil p)
        · intro f hf
          exact absurd hf (List.not_mem_nil f)
        · intro t ht
          exact absurd ht (List.not_mem_nil t)
        · intro b hb
          exact absurd hb (List.not_mem_nil b)
    | tail hsteps hstep ih =>
        exact ⟨step_inv hstep ih.1, (step_already hstep).trans ih.2⟩
  have h1 := key.1.1
  rw [key.2, Finset.union_empty] at h1
  exact h1

/-- A configuration used to instantiate pipeline-level witnesses. -/
def pipeCfg : BatchConfig := ⟨50, 10, 500, 30, 8, 1000, 400⟩

/-- Witness for C1 after one concrete watcher event. -/
theorem claim_C1_secured_subset_produced_witness :
    (process_file (pipelineInit pipeCfg ∅ 250) "cache_0042.bphys"
        true true).tracker.securedFrames ⊆
      (process_file (pipelineInit pipeCfg ∅ 250) "cache_0042.bphys"
        true true).tracker.bakedFrames :=
  claim_C1_secured_subset_produced pipeCfg "cache/" 250 _
    (Relation.ReflTransGen.single
      (PipeStep.processFile (pipelineInit pipeCfg ∅ 250) "cache_0042.bphys"
        true true))

/- ============================================================
   Finalize protocol (`Pipeline.finalize`, `BatchCompressor.flush`)
   ============================================================ -/

/-- `BatchCompressor.flush`: force compression of whatever is pending
(`_compress_batch` itself returns immediately when nothing is pending, which
is the source's `if self._pending_frames:` guard). -/
def flush (cfg : BatchConfig) (st : PipelineState) (trainOk : Bool)
    (outcome : CompressOutcome) : PipelineState × List PipeEv :=
  compress_batch cfg st trainOk outcome

/-- The uploader emptying the compressed-batch queue during the finalize
wait; the i-th upload takes outcomes `putOks i` / `partOks i` / `durs i`.
`fuel` bounds the number of uploads by the queue length. -/
def drain_uploads (cfg : BatchConfig) (pre : String) (putOks : Nat → Bool)
    (partOks : Nat → Nat → Bool) (durs : Nat → ℚ) :
    Nat → PipelineState → PipelineState × List PipeEv × List S3Ev
  | 0, st => (st, [], [])
  | fuel + 1, st =>
      match st.batchQueue with
      | [] => (st, [], [])
      | _ :: _ =>
          let r1 := upload_batch cfg pre st (putOks 0) (partOks 0) (durs 0)
          let r2 := drain_uploads cfg pre (fun i => putOks (i + 1))
            (fun i => partOks (i + 1)) (fun i => durs (i + 1)) fuel r1.1
          (r2.1, r1.2.1 ++ r2.2.1, r1.2.2 ++ r2.2.2)

/-- `Pipeline.finalize`: flush the compressor, wait for the upload queue to
drain (the uploader's work during the bounded wait is the drain), then upload
the compression dictionary once if it was trained and its blob is
non-empty. -/
def finalize (cfg : BatchConfig) (pre : String) (st : PipelineState)
    (trainOk : Bool) (outcome : CompressOutcome) (putOks : Nat → Bool)
    (partOks : Nat → Nat → Bool) (durs : Nat → ℚ) :
    PipelineState × List PipeEv × List S3Ev :=
  let r1 := flush cfg st trainOk outcome
  let r2 := drain_uploads cfg pre putOks partOks durs r1.1.batchQueue.length r1.1
  (r2.1, r1.2 ++ r2.2.1,
   r2.2.2 ++
     (if r2.1.dict.isTrained && r2.1.dict.hasBytes then
        [S3Ev.putDict (pre ++ "dictionary.zstd")]
      else []))

/-- Whether an object-storage request is the dictionary upload. -/
def isDictEv : S3Ev → Bool
  | .putDict _ => true
  | _ => false

/-- How many dictionary uploads a request trace contains. -/
def countDict (evs : List S3Ev) : Nat :=
  (evs.filter isDictEv).length

theorem countDict_append (l1 l2 : List S3Ev) :
    countDict (l1 ++ l2) = countDict l1 + countDict l2 := by
  simp [countDict, List.filter_append]

theorem uploadParts_no_dict (csz : Nat) (key : String) (pk : Nat → Bool) :
    ∀ (r pn : Nat), countDict (uploadParts csz key pk r pn).2 = 0 := by
  intro r
  induction r using Nat.strong_induction_on with
  | _ r ih =>
      intro pn
      cases r with
      | zero => rw [uploadParts]; rfl
      | succ r' =>
          rw [uploadParts]
          by_cases hpk : pk pn = true
          · rw [if_pos hpk]
            have := ih (r' + 1 - max csz 1) (by omega) (pn + 1)
            simp [countDict, isDictEv] at this ⊢
            exact this
          · rw [if_neg hpk]
            rfl

theorem multipart_no_dict (cfg : BatchConfig) (key : String) (dataLen : Nat)
    (pk : Nat → Bool) : countDict (multipart_upload cfg key dataLen pk).2 = 0 := by
  unfold multipart_upload
  have h := uploadParts_no_dict cfg.multipartChunk key pk dataLen 1
  split
  · simp only [countDict, List.filter_cons, List.filter_append] at h ⊢
    simp [isDictEv, h]
  · simp only [countDict, List.filter_cons, List.filter_append] at h ⊢
    simp [isDictEv, h]

theorem upload_batch_no_dict (cfg : BatchConfig) (pre : String)
    (st : PipelineState) (putOk : Bool) (partOk : Nat → Bool) (dur : ℚ) :
    countDict (upload_batch cfg pre st putOk partOk dur).2.2 = 0 := by
  unfold upload_batch
  split
  · rfl
  · rename_i batchId dataLen frameNumbers rest hq
    split
    · split
      · exact multipart_no_dict cfg (batchKey pre batchId) dataLen partOk
      · exact multipart_no_dict cfg (batchKey pre batchId) dataLen partOk
    · split
      · rfl
      · rfl

theorem drain_no_dict (cfg : BatchConfig) (pre : String) :
    ∀ (fuel : Nat) (putOks : Nat → Bool) (partOks : Nat → Nat → Bool)
      (durs : Nat → ℚ) (st : PipelineState),
      countDict (drain_uploads cfg pre putOks partOks durs fuel st).2.2 = 0 := by
  intro fuel
  induction fuel with
  | zero => intro _ _ _ _; rfl
  | succ f ih =>
      intro putOks partOks durs st
      rw [drain_uploads]
      split
      · rfl
      · simp only []
        rw [countDict_append, upload_batch_no_dict, ih]

/-- The short-run scenario state: a single file for frame 5 observed and taken
by the compressor, with the configured batch size of 50 never reached. -/
def c3state : PipelineState :=
  add_frame (process_file (pipelineInit pipeCfg ∅ 250) "frame_0005.bphys"
    true true)

/-- C3: `finalize()` forces compression of the pending sub-batch-size files
(`flush` allocates a batch even though the target size was not reached),
drains the compressed-batch queue, and uploads the dictionary exactly once
iff it was trained with a non-empty blob.  The scenario conjuncts run the
concrete short run: a single file for frame 5 under a batch size of 50 —
`finalize()` produces exactly one batch, with frames `[5]`, confirmed, and
the secured set afterwards is `{5}` (no dictionary upload: it was never
trained). -/
theorem claim_C3_finalize (cfg : BatchConfig) (pre : String) (st : PipelineState)
    (trainOk : Bool) (outcome : CompressOutcome) (putOks : Nat → Bool)
    (partOks : Nat → Nat → Bool) (durs : Nat → ℚ)
    (hp : st.comp.pendingFrames ≠ []) :
    ((flush cfg st trainOk outcome).1.tracker.nextBatchId
      = st.tracker.nextBatchId + 1) ∧
    (countDict (finalize cfg pre st trainOk outcome putOks partOks durs).2.2 =
      if (finalize cfg pre st trainOk outcome putOks partOks durs).1.dict.isTrained
          && (finalize cfg pre st trainOk outcome putOks partOks durs).1.dict.hasBytes
      then 1 else 0) ∧
    ((finalize pipeCfg "cache/" c3state true (.ok 100 200) (fun _ => true)
        (fun _ _ => true) (fun _ => 2)).1.tracker.securedFrames = {5}) ∧
    ((finalize pipeCfg "cache/" c3state true (.ok 100 200) (fun _ => true)
        (fun _ _ => true) (fun _ => 2)).1.tracker.batches.map
          (fun b => (b.batchId, b.frames, b.status)) =
        [(0, [5], BatchStatus.confirmed)]) ∧
    ((finalize pipeCfg "cache/" c3state true (.ok 100 200) (fun _ => true)
        (fun _ _ => true) (fun _ => 2)).1.batchQueue = []) ∧
    (countDict (finalize pipeCfg "cache/" c3state true (.ok 100 200)
        (fun _ => true) (fun _ _ => true) (fun _ => 2)).2.2 = 0) := by
  refine ⟨?_, ?_, by decide, by decide, by decide, by decide⟩
  · unfold flush compress_batch
    split
    · rename_i he
      exact absurd (List.isEmpty_iff.mp he) hp
    · split
      · simp [ProgressTracker.create_batch, ProgressTracker.register_compressed]
      · simp [ProgressTracker.create_batch, ProgressTracker.register_batch_failed]
  · simp only [finalize]
    rw [countDict_append, drain_no_dict]
    split <;> rfl

/-- Witness for C3 on the concrete short run. -/
theorem claim_C3_finalize_witness :
    ((flush pipeCfg c3state true (.ok 100 200)).1.tracker.nextBatchId
      = c3state.tracker.nextBatchId + 1) ∧
    (countDict (finalize pipeCfg "cache/" c3state true (.ok 100 200)
        (fun _ => true) (fun _ _ => true) (fun _ => 2)).2.2 =
      if (finalize pipeCfg "cache/" c3state true (.ok 100 200) (fun _ => true)
            (fun _ _ => true) (fun _ => 2)).1.dict.isTrained
          && (finalize pipeCfg "cache/" c3state true (.ok 100 200) (fun _ => true)
            (fun _ _ => true) (fun _ => 2)).1.dict.hasBytes
      then 1 else 0) ∧
    ((finalize pipeCfg "cache/" c3state true (.ok 100 200) (fun _ => true)
        (fun _ _ => true) (fun _ => 2)).1.tracker.securedFrames = {5}) ∧
    ((finalize pipeCfg "cache/" c3state true (.ok 100 200) (fun _ => true)
        (fun _ _ => true) (fun _ => 2)).1.tracker.batches.map
          (fun b => (b.batchId, b.frames, b.status)) =
        [(0, [5], BatchStatus.confirmed)]) ∧
    ((finalize pipeCfg "cache/" c3state true (.ok 100 200) (fun _ => true)
        (fun _ _ => true) (fun _ => 2)).1.batchQueue = []) ∧
    (countDict (finalize pipeCfg "cache/" c3state true (.ok 100 200)
        (fun _ => true) (fun _ _ => true) (fun _ => 2)).2.2 = 0) :=
  claim_C3_finalize pipeCfg "cache/" c3state true (.ok 100 200) (fun _ => true)
    (fun _ _ => true) (fun _ => 2) (by decide)

/- ============================================================
   Multipart upload shape (C7)
   ============================================================ -/

/-- The number of parts the multipart loop uploads for a payload of `r`
bytes with the given chunk size. -/
def numChunks (csz : Nat) : Nat → Nat
  | 0 => 0
  | r + 1 => 1 + numChunks csz (r + 1 - max csz 1)
  termination_by r => r
  decreasing_by simp_wf

/-- The sizes of the successive chunks `data[offset:offset+chunk_size]`. -/
def chunkSizes (csz : Nat) : Nat → List Nat
  | 0 => []
  | r + 1 => min (r + 1) (max csz 1) :: chunkSizes csz (r + 1 - max csz 1)
  termination_by r => r
  decreasing_by simp_wf

/-- The event trace of a fully successful parts loop starting at part number
`pn` with `r` bytes left. -/
def partsTrace (csz : Nat) (key : String) : Nat → Nat → List S3Ev
  | 0, _ => []
  | r + 1, pn =>
      .uploadPart key pn (min (r + 1) (max csz 1)) ::
        partsTrace csz key (r + 1 - max csz 1) (pn + 1)
  termination_by r _ => r
  decreasing_by simp_wf

theorem uploadParts_all_ok (csz : Nat) (key : String) (pk : Nat → Bool)
    (hok : ∀ pn, pk pn = true) :
    ∀ (r pn : Nat), uploadParts csz key pk r pn = (true, partsTrace csz key r pn) := by
  intro r
  induction r using Nat.strong_induction_on with
  | _ r ih =>
      intro pn
      cases r with
      | zero => rw [uploadParts, partsTrace]
      | succ r' =>
          rw [uploadParts, partsTrace, hok pn, if_pos rfl,
            ih (r' + 1 - max csz 1) (by omega) (pn + 1)]

theorem partsTrace_numbers (csz : Nat) (key : String) :
    ∀ (r pn : Nat), partNumbersOf (partsTrace csz key r pn)
      = List.range' pn (numChunks csz r) := by
  intro r
  induction r using Nat.strong_induction_on with
  | _ r ih =>
      intro pn
      cases r with
      | zero => rw [partsTrace, numChunks]; rfl
      | succ r' =>
          have ih' := ih (r' + 1 - max csz 1) (by omega) (pn + 1)
          rw [partsTrace, numChunks]
          simp only [partNumbersOf, List.filterMap_cons] at ih' ⊢
          rw [ih', Nat.add_comm 1 (numChunks csz (r' + 1 - max csz 1))]
          rfl

theorem partsTrace_sizes (csz : Nat) (key : String) :
    ∀ (r pn : Nat), partSizesOf (partsTrace csz key r pn) = chunkSizes csz r := by
  intro r
  induction r using Nat.strong_induction_on with
  | _ r ih =>
      intro pn
      cases r with
      | zero => rw [partsTrace, chunkSizes]; rfl
      | succ r' =>
          have ih' := ih (r' + 1 - max csz 1) (by omega) (pn + 1)
          rw [partsTrace, chunkSizes]
          simp only [partSizesOf, List.filterMap_cons] at ih' ⊢
          rw [ih']

/-- Every event the parts loop emits is an `upload_part` request on the same
key: the loop itself never creates, completes or aborts the transaction. -/
theorem uploadParts_events (csz : Nat) (key : String) (pk : Nat → Bool) :
    ∀ (r pn : Nat), ∀ e ∈ (uploadParts csz key pk r pn).2,
      ∃ k s, e = S3Ev.uploadPart key k s := by
  intro r
  induction r using Nat.strong_induction_on with
  | _ r ih =>
      intro pn e he
      cases r with
      | zero =>
          rw [uploadParts] at he
          exact absurd he (List.not_mem_nil e)
      | succ r' =>
          rw [uploadParts] at he
          by_cases hpk : pk pn = true
          · rw [if_pos hpk] at he
            rcases List.mem_cons.mp he with rfl | he
            · exact ⟨pn, _, rfl⟩
            · exact ih (r' + 1 - max csz 1) (by omega) (pn + 1) e he
          · rw [if_neg hpk] at he
            rcases List.mem_singleton.mp he with rfl
            exact ⟨pn, _, rfl⟩

/-- C7: a compressed batch above the multipart threshold goes through the
chunked multipart path and one at or below it through a single `put_object`
carrying the batch id and frame list as metadata; a fully successful
multipart run uploads sequential parts 1..n of the fixed chunk size and
completes the transaction only after all of them, as the final request; a
failed part makes the transaction abort (as the final request, with no
complete ever issued) and the error propagates to mark the batch failed in
the ledger. -/
theorem claim_C7_upload_strategy (cfg : BatchConfig) (pre : String)
    (st : PipelineState) (putOk : Bool) (partOk : Nat → Bool) (dur : ℚ)
    (batchId dataLen : Nat) (frames : List Nat) (rest : List (Nat × Nat × List Nat))
    (hq : st.batchQueue = (batchId, dataLen, frames) :: rest) :
    (¬cfg.multipartThreshold < dataLen →
      (upload_batch cfg pre st putOk partOk dur).2.2 =
        [.putObject (batchKey pre batchId) dataLen batchId frames]) ∧
    (cfg.multipartThreshold < dataLen →
      (upload_batch cfg pre st putOk partOk dur).2.2 =
        (multipart_upload cfg (batchKey pre batchId) dataLen partOk).2) ∧
    (∀ (key : String) (len : Nat) (pk : Nat → Bool), (∀ pn, pk pn = true) →
      multipart_upload cfg key len pk =
        (true, .createMultipart key :: partsTrace cfg.multipartChunk key len 1 ++
          [.completeMultipart key
            (List.range' 1 (numChunks cfg.multipartChunk len))]) ∧
      partSizesOf (partsTrace cfg.multipartChunk key len 1)
        = chunkSizes cfg.multipartChunk len) ∧
    (∀ (key : String) (len : Nat) (pk : Nat → Bool),
      (uploadParts cfg.multipartChunk key pk len 1).1 = false →
      ((multipart_upload cfg key len pk).1 = false ∧
       (multipart_upload cfg key len pk).2 =
         .createMultipart key :: (uploadParts cfg.multipartChunk key pk len 1).2 ++
           [.abortMultipart key] ∧
       (∀ pns, S3Ev.completeMultipart key pns ∉ (multipart_upload cfg key len pk).2))) ∧
    (cfg.multipartThreshold < dataLen →
      (multipart_upload cfg (batchKey pre batchId) dataLen partOk).1 = false →
      (upload_batch cfg pre st putOk partOk dur).1.tracker =
        st.tracker.register_batch_failed batchId ∧
      (upload_batch cfg pre st putOk partOk dur).2.1 = [.uploadFail batchId]) := by
  refine ⟨?_, ?_, ?_, ?_, ?_⟩
  · intro hle
    unfold upload_batch
    rw [hq]
    simp only [if_neg hle]
    split <;> rfl
  · intro hgt
    unfold upload_batch
    rw [hq]
    simp only [if_pos hgt]
    split <;> rfl
  · intro key len pk hok
    constructor
    · unfold multipart_upload
      rw [uploadParts_all_ok cfg.multipartChunk key pk hok len 1]
      rw [partsTrace_numbers]
      rfl
    · exact partsTrace_sizes cfg.multipartChunk key len 1
  · intro key len pk hfail
    have hm : multipart_upload cfg key len pk =
        (false, .createMultipart key ::
          (uploadParts cfg.multipartChunk key pk len 1).2 ++
          [.abortMultipart key]) := by
      unfold multipart_upload
      rw [hfail]
      simp
    refine ⟨by rw [hm], by rw [hm], ?_⟩
    intro pns hmem
    rw [hm] at hmem
    rcases List.mem_cons.mp hmem with heq | hmem
    · exact S3Ev.noConfusion heq
    · rcases List.mem_append.mp hmem with hmem | hmem
      · rcases uploadParts_events cfg.multipartChunk key pk len 1 _ hmem with
          ⟨k, s, heq⟩
        exact S3Ev.noConfusion heq
      · rcases List.mem_singleton.mp hmem with heq
        exact S3Ev.noConfusion heq
  · intro hgt hmfail
    unfold upload_batch
    rw [hq]
    simp only [if_pos hgt]
    rw [hmfail]
    exact ⟨rfl, rfl⟩

/-- A pipeline state holding one compressed batch of 1001 bytes (above the
1000-byte multipart threshold of `pipeCfg`) covering frames 7 and 8. -/
def c7state : PipelineState :=
  { pipelineInit pipeCfg ∅ 250 with batchQueue := [(3, 1001, [7, 8])] }

/-- Witness for C7 on the concrete queued batch. -/
theorem claim_C7_upload_strategy_witness :
    (¬pipeCfg.multipartThreshold < 1001 →
      (upload_batch pipeCfg "cache/" c7state true (fun _ => true) 1).2.2 =
        [.putObject (batchKey "cache/" 3) 1001 3 [7, 8]]) ∧
    (pipeCfg.multipartThreshold < 1001 →
      (upload_batch pipeCfg "cache/" c7state true (fun _ => true) 1).2.2 =
        (multipart_upload pipeCfg (batchKey "cache/" 3) 1001 (fun _ => true)).2) ∧
    (∀ (key : String) (len : Nat) (pk : Nat → Bool), (∀ pn, pk pn = true) →
      multipart_upload pipeCfg key len pk =
        (true, .createMultipart key :: partsTrace pipeCfg.multipartChunk key len 1 ++
          [.completeMultipart key
            (List.range' 1 (numChunks pipeCfg.multipartChunk len))]) ∧
      partSizesOf (partsTrace pipeCfg.multipartChunk key len 1)
        = chunkSizes pipeCfg.multipartChunk len) ∧
    (∀ (key : String) (len : Nat) (pk : Nat → Bool),
      (uploadParts pipeCfg.multipartChunk key pk len 1).1 = false →
      ((multipart_upload pipeCfg key len pk).1 = false ∧
       (multipart_upload pipeCfg key len pk).2 =
         .createMultipart key :: (uploadParts pipeCfg.multipartChunk key pk len 1).2 ++
           [.abortMultipart key] ∧
       (∀ pns, S3Ev.completeMultipart key pns ∉ (multipart_upload pipeCfg key len pk).2))) ∧
    (pipeCfg.multipartThreshold < 1001 →
      (multipart_upload pipeCfg (batchKey "cache/" 3) 1001 (fun _ => true)).1 = false →
      (upload_batch pipeCfg "cache/" c7state true (fun _ => true) 1).1.tracker =
        c7state.tracker.register_batch_failed 3 ∧
      (upload_batch pipeCfg "cache/" c7state true (fun _ => true) 1).2.1 =
        [.uploadFail 3]) :=
  claim_C7_upload_strategy pipeCfg "cache/" c7state true (fun _ => true) 1
    3 1001 [7, 8] [] rfl

/- ============================================================
   Compression-failure isolation (C8)
   ============================================================ -/

/-- The run of the failure-isolation scenario: the file for frame 3 arrives
and its batch A fails during compression; the file for frame 7 arrives later,
its batch B compresses (80 raw bytes to 50) and uploads.  The four components
are: the state after A's failed compression, A's compression events, and the
state and events after B's upload. -/
def c8afterA : PipelineState × List PipeEv :=
  compress_batch pipeCfg
    (add_frame (process_file (pipelineInit pipeCfg ∅ 250) "sim_0003.bphys"
      true true))
    true .err

/-- The scenario state after batch B compressed and uploaded. -/
def c8final : PipelineState × List PipeEv × List S3Ev :=
  upload_batch pipeCfg "cache/"
    (compress_batch pipeCfg
      (add_frame (process_file c8afterA.1 "sim_0007.bphys" false true))
      true (.ok 50 80)).1
    true (fun _ => true) 1

/-- C8: a compression exception marks the batch failed in the ledger with its
id and full frame list, clears the pending lists (the files are dropped, and
a seen file is never re-enqueued by later watcher events), leaves the
compressed-batch queue and the secured set untouched, and logs the failure
with the batch id; sibling work is unaffected — in the concrete scenario,
batch B created after failed batch A still compresses and uploads, the final
secured set holds B's frames and none of A's, and A's record names its id and
frame list. -/
theorem claim_C8_compression_failure_isolation (cfg : BatchConfig)
    (st : PipelineState) (trainOk : Bool) (hp : st.comp.pendingFrames ≠ []) :
    ((compress_batch cfg st trainOk .err).1.comp.pendingFrames = [] ∧
     (compress_batch cfg st trainOk .err).1.comp.pendingFrameNumbers = [] ∧
     (compress_batch cfg st trainOk .err).1.batchQueue = st.batchQueue ∧
     (compress_batch cfg st trainOk .err).1.tracker.securedFrames
       = st.tracker.securedFrames ∧
     (∃ b ∈ (compress_batch cfg st trainOk .err).1.tracker.batches,
        b.batchId = st.tracker.nextBatchId ∧
        b.frames = st.comp.pendingFrameNumbers ∧
        b.status = BatchStatus.failed) ∧
     (compress_batch cfg st trainOk .err).2 =
       [.compressStart st.tracker.nextBatchId st.comp.pendingFrameNumbers,
        .compressFail st.tracker.nextBatchId]) ∧
    (∀ (st' : PipelineState) (p : String) (i s : Bool),
      p ∈ st'.seenFiles → process_file st' p i s = st') ∧
    (c8final.1.tracker.securedFrames = {7} ∧
     c8final.1.tracker.batches.map (fun b => (b.batchId, b.frames, b.status)) =
       [(0, [3], BatchStatus.failed), (1, [7], BatchStatus.confirmed)] ∧
     c8afterA.2 = [.compressStart 0 [3], .compressFail 0] ∧
     (3 : Nat) ∉ c8final.1.tracker.securedFrames) := by
  refine ⟨?_, ?_, by decide, by decide, by decide, by decide⟩
  · unfold compress_batch
    split
    · rename_i he
      exact absurd (List.isEmpty_iff.mp he) hp
    · simp only []
      refine ⟨trivial, trivial, trivial, ?_, ?_, trivial⟩
      · simp [ProgressTracker.create_batch, ProgressTracker.register_batch_failed]
      · refine ⟨⟨st.tracker.nextBatchId, st.comp.pendingFrameNumbers,
          BatchStatus.failed, 0, 0, none, 0⟩, ?_, rfl, rfl, rfl⟩
        show _ ∈ ((st.tracker.create_batch
          st.comp.pendingFrameNumbers).2.register_batch_failed
          st.tracker.nextBatchId).batches
        simp only [ProgressTracker.create_batch,
          ProgressTracker.register_batch_failed, List.map_append,
          List.mem_append]
        right
        simp
  · intro st' p i s hmem
    unfold process_file
    rw [if_pos hmem]

/-- Witness for C8 on the scenario's first (failing) compression. -/
theorem claim_C8_compression_failure_isolation_witness :
    ((compress_batch pipeCfg
        (add_frame (process_file (pipelineInit pipeCfg ∅ 250) "sim_0003.bphys"
          true true)) true .err).1.comp.pendingFrames = [] ∧
     (compress_batch pipeCfg
        (add_frame (process_file (pipelineInit pipeCfg ∅ 250) "sim_0003.bphys"
          true true)) true .err).1.comp.pendingFrameNumbers = [] ∧
     (compress_batch pipeCfg
        (add_frame (process_file (pipelineInit pipeCfg ∅ 250) "sim_0003.bphys"
          true true)) true .err).1.batchQueue =
       (add_frame (process_file (pipelineInit pipeCfg ∅ 250) "sim_0003.bphys"
          true true)).batchQueue ∧
     (compress_batch pipeCfg
        (add_frame (process_file (pipelineInit pipeCfg ∅ 250) "sim_0003.bphys"
          true true)) true .err).1.tracker.securedFrames =
       (add_frame (process_file (pipelineInit pipeCfg ∅ 250) "sim_0003.bphys"
          true true)).tracker.securedFrames ∧
     (∃ b ∈ (compress_batch pipeCfg
        (add_frame (process_file (pipelineInit pipeCfg ∅ 250) "sim_0003.bphys"
          true true)) true .err).1.tracker.batches,
        b.batchId = (add_frame (process_file (pipelineInit pipeCfg ∅ 250)
          "sim_0003.bphys" true true)).tracker.nextBatchId ∧
        b.frames = (add_frame (process_file (pipelineInit pipeCfg ∅ 250)
          "sim_0003.bphys" true true)).comp.pendingFrameNumbers ∧
        b.status = BatchStatus.failed) ∧
     (compress_batch pipeCfg
        (add_frame (process_file (pipelineInit pipeCfg ∅ 250) "sim_0003.bphys"
          true true)) true .err).2 =
       [.compressStart (add_frame (process_file (pipelineInit pipeCfg ∅ 250)
          "sim_0003.bphys" true true)).tracker.nextBatchId
          (add_frame (process_file (pipelineInit pipeCfg ∅ 250)
            "sim_0003.bphys" true true)).comp.pendingFrameNumbers,
        .compressFail (add_frame (process_file (pipelineInit pipeCfg ∅ 250)
          "sim_0003.bphys" true true)).tracker.nextBatchId]) ∧
    (∀ (st' : PipelineState) (p : String) (i s : Bool),
      p ∈ st'.seenFiles → process_file st' p i s = st') ∧
    (c8final.1.tracker.securedFrames = {7} ∧
     c8final.1.tracker.batches.map (fun b => (b.batchId, b.frames, b.status)) =
       [(0, [3], BatchStatus.failed), (1, [7], BatchStatus.confirmed)] ∧
     c8afterA.2 = [.compressStart 0 [3], .compressFail 0] ∧
     (3 : Nat) ∉ c8final.1.tracker.securedFrames) :=
  claim_C8_compression_failure_isolation pipeCfg
    (add_frame (process_file (pipelineInit pipeCfg ∅ 250) "sim_0003.bphys"
      true true)) true (by decide)

/- ============================================================
   Presigned-URL cache streamer (`cache_streamer.py`, `CacheStreamer`)
   ============================================================ -/

/-- The streamer's tracking state: the `pending_url_files` dict (relative
path → full path, in insertion order), the uploaded / queued / failed
key-sets, and the `PresignedUploader` counters. -/
structure StreamerState where
  pendingUrlFiles : List (String × String)
  uploadedFiles : Finset String
  queuedFiles : Finset String
  failedFiles : Finset String
  stats : UploaderStats
deriving DecidableEq

/-- Python dict `d[k] = v`: overwrite in place when the key exists, append
otherwise. -/
def dictSet (k v : String) (l : List (String × String)) :
    List (String × String) :=
  if l.any (fun e => e.1 = k) then
    l.map (fun e => if e.1 = k then (k, v) else e)
  else l ++ [(k, v)]

/-- A file as `CacheStreamer._upload_file` sees it: its absolute path (the
tracking key) and its path relative to the cache root — `none` when
`relative_to` raises `ValueError`. -/
structure StreamFile where
  key : String
  rel : Option String
deriving DecidableEq

/-- `CacheStreamer._upload_file`: skip files already uploaded or vanished;
after the stability wait, a zero-size file is silently marked uploaded with
no `PUT`; otherwise the presigned uploader runs (with its bounded retries),
and on overall failure the file is marked failed and re-registered into
`pending_url_files` for a fresh presigned URL.  `statRes` is the `stat`
result after the stability wait (`none` = `OSError`), `outcomes` the per-PUT
outcomes of the presigned uploader. -/
def stream_upload_file (st : StreamerState) (f : StreamFile)
    (fileExists : Bool) (statRes : Option Nat) (outcomes : Nat → PutOutcome) :
    StreamerState × List UploadEv :=
  if f.key ∈ st.uploadedFiles then
    ({ st with queuedFiles := st.queuedFiles.erase f.key }, [])
  else if !fileExists then
    ({ st with queuedFiles := st.queuedFiles.erase f.key }, [])
  else
    match statRes with
    | none => ({ st with queuedFiles := st.queuedFiles.erase f.key }, [])
    | some 0 =>
        ({ st with
             uploadedFiles := insert f.key st.uploadedFiles,
             queuedFiles := st.queuedFiles.erase f.key }, [])
    | some (fsize + 1) =>
        if (upload_file st.stats fileExists (fsize + 1) outcomes MAX_RETRIES).1 then
          ({ st with
               stats := (upload_file st.stats fileExists (fsize + 1) outcomes
                 MAX_RETRIES).2.1,
               uploadedFiles := insert f.key st.uploadedFiles,
               queuedFiles := st.queuedFiles.erase f.key },
           (upload_file st.stats fileExists (fsize + 1) outcomes MAX_RETRIES).2.2)
        else
          match f.rel with
          | some rp =>
              ({ st with
                   stats := (upload_file st.stats fileExists (fsize + 1) outcomes
                     MAX_RETRIES).2.1,
                   failedFiles := insert f.key st.failedFiles,
                   queuedFiles := st.queuedFiles.erase f.key,
                   pendingUrlFiles := dictSet rp f.key st.pendingUrlFiles },
               (upload_file st.stats fileExists (fsize + 1) outcomes
                 MAX_RETRIES).2.2)
          | none =>
              ({ st with
                   stats := (upload_file st.stats fileExists (fsize + 1) outcomes
                     MAX_RETRIES).2.1,
                   failedFiles := insert f.key st.failedFiles,
                   queuedFiles := st.queuedFiles.erase f.key },
               (upload_file st.stats fileExists (fsize + 1) outcomes
                 MAX_RETRIES).2.2)

theorem mem_dictSet_self (k v : String) (l : List (String × String)) :
    (k, v) ∈ dictSet k v l := by
  unfold dictSet
  split
  · rename_i hany
    rcases List.any_eq_true.mp hany with ⟨e, he, hek⟩
    refine List.mem_map.mpr ⟨e, he, ?_⟩
    rw [if_pos (of_decide_eq_true hek)]
  · exact List.mem_append.mpr (Or.inr (List.mem_singleton.mpr rfl))

/-- The streamer state of the C9 counterexample: one queued file, nothing
pending, uploaded or failed yet. -/
def c9state : StreamerState :=
  ⟨[], ∅, {"work/cache/f.vdb"}, ∅, UploaderStats.init⟩

/-- C9 counterexample: when a file's presigned upload exhausts its retry
budget, the streamer marks it failed but also re-registers it into
`pending_url_files` ("Re-register pour retry"), so the run itself schedules
another upload attempt — contradicting the claim that no component
re-enqueues the failed file. -/
theorem claim_C9_counterexample :
    (stream_upload_file c9state ⟨"work/cache/f.vdb", some "f.vdb"⟩ true (some 10)
        (fun _ => .netErr "refused")).1.failedFiles = {"work/cache/f.vdb"} ∧
    (stream_upload_file c9state ⟨"work/cache/f.vdb", some "f.vdb"⟩ true (some 10)
        (fun _ => .netErr "refused")).1.pendingUrlFiles =
      [("f.vdb", "work/cache/f.vdb")] ∧
    (stream_upload_file c9state ⟨"work/cache/f.vdb", some "f.vdb"⟩ true (some 10)
        (fun _ => .netErr "refused")).1.pendingUrlFiles ≠ [] := by
  refine ⟨?_, ?_, ?_⟩ <;> decide

/-- C9 (amended): once the presigned retry budget is exhausted the object is
marked failed (key added to the failed set, error counter incremented once)
and removed from the queued set — but it is then re-registered into the
pending-URL dict under its relative path, so the streamer itself will request
a fresh presigned URL and retry the file within the run (only a file whose
`relative_to` raises is not re-registered). -/
theorem claim_C9_presigned_failure_requeue (st : StreamerState) (key rp : String)
    (fsize : Nat) (outcomes : Nat → PutOutcome)
    (hnup : key ∉ st.uploadedFiles)
    (hfail : ∀ i, putFails (outcomes i) = true) :
    (stream_upload_file st ⟨key, some rp⟩ true (some (fsize + 1)) outcomes).1.failedFiles
      = insert key st.failedFiles ∧
    (stream_upload_file st ⟨key, some rp⟩ true (some (fsize + 1)) outcomes).1.stats.totalErrors
      = st.stats.totalErrors + 1 ∧
    (rp, key) ∈ (stream_upload_file st ⟨key, some rp⟩ true (some (fsize + 1))
      outcomes).1.pendingUrlFiles ∧
    (stream_upload_file st ⟨key, some rp⟩ true (some (fsize + 1)) outcomes).1.queuedFiles
      = st.queuedFiles.erase key ∧
    (stream_upload_file st ⟨key, some rp⟩ true (some (fsize + 1)) outcomes).1.uploadedFiles
      = st.uploadedFiles := by
  have hrun := claim_C6_presigned_retry st.stats (fsize + 1) outcomes hfail
  have hflag : (upload_file st.stats true (fsize + 1) outcomes MAX_RETRIES).1 = false :=
    hrun.1
  unfold stream_upload_file
  rw [if_neg hnup]
  simp only [Bool.not_true, Bool.false_eq_true, if_false]
  rw [hflag]
  simp only [Bool.false_eq_true, if_false]
  exact ⟨by trivial, hrun.2.1, mem_dictSet_self rp key st.pendingUrlFiles,
    by trivial, by trivial⟩

/-- Witness for C9 (amended) on the concrete failing upload. -/
theorem claim_C9_presigned_failure_requeue_witness :
    (stream_upload_file c9state ⟨"work/cache/f.vdb", some "f.vdb"⟩ true (some 10)
        (fun _ => .netErr "refused")).1.failedFiles
      = insert "work/cache/f.vdb" c9state.failedFiles ∧
    (stream_upload_file c9state ⟨"work/cache/f.vdb", some "f.vdb"⟩ true (some 10)
        (fun _ => .netErr "refused")).1.stats.totalErrors
      = c9state.stats.totalErrors + 1 ∧
    ("f.vdb", "work/cache/f.vdb") ∈ (stream_upload_file c9state
        ⟨"work/cache/f.vdb", some "f.vdb"⟩ true (some 10)
        (fun _ => .netErr "refused")).1.pendingUrlFiles ∧
    (stream_upload_file c9state ⟨"work/cache/f.vdb", some "f.vdb"⟩ true (some 10)
        (fun _ => .netErr "refused")).1.queuedFiles
      = c9state.queuedFiles.erase "work/cache/f.vdb" ∧
    (stream_upload_file c9state ⟨"work/cache/f.vdb", some "f.vdb"⟩ true (some 10)
        (fun _ => .netErr "refused")).1.uploadedFiles = c9state.uploadedFiles :=
  claim_C9_presigned_failure_requeue c9state "work/cache/f.vdb" "f.vdb" 9
    (fun _ => .netErr "refused") (by decide) (fun _ => rfl)

/-- C10: a file whose size reads zero after the stability wait is silently
marked uploaded with no network `PUT`: its key joins the uploaded set and
leaves the queued set, the pending dict, the failed set and all uploader
counters are untouched, no upload event is emitted, and any later
`_upload_file` call on the same key is a pure dedup no-op (never retried,
never reported failed). -/
theorem claim_C10_zero_size_skip (st : StreamerState) (f : StreamFile)
    (outcomes : Nat → PutOutcome) (hnup : f.key ∉ st.uploadedFiles) :
    (stream_upload_file st f true (some 0) outcomes).1.uploadedFiles
      = insert f.key st.uploadedFiles ∧
    (stream_upload_file st f true (some 0) outcomes).1.queuedFiles
      = st.queuedFiles.erase f.key ∧
    (stream_upload_file st f true (some 0) outcomes).1.stats = st.stats ∧
    (stream_upload_file st f true (some 0) outcomes).1.failedFiles
      = st.failedFiles ∧
    (stream_upload_file st f true (some 0) outcomes).1.pendingUrlFiles
      = st.pendingUrlFiles ∧
    (stream_upload_file st f true (some 0) outcomes).2 = [] ∧
    (∀ (ex : Bool) (sr : Option Nat) (oc : Nat → PutOutcome),
      stream_upload_file (stream_upload_file st f true (some 0) outcomes).1 f
          ex sr oc =
        ({ (stream_upload_file st f true (some 0) outcomes).1 with
             queuedFiles := (stream_upload_file st f true (some 0)
               outcomes).1.queuedFiles.erase f.key }, [])) := by
  have hred : stream_upload_file st f true (some 0) outcomes =
      ({ st with
           uploadedFiles := insert f.key st.uploadedFiles,
           queuedFiles := st.queuedFiles.erase f.key }, []) := by
    unfold stream_upload_file
    rw [if_neg hnup]
    rfl
  refine ⟨by rw [hred], by rw [hred], by rw [hred], by rw [hred], by rw [hred],
    by rw [hred], ?_⟩
  intro ex sr oc
  rw [hred]
  unfold stream_upload_file
  rw [if_pos (Finset.mem_insert_self f.key st.uploadedFiles)]

/-- Witness for C10 on a concrete zero-size file. -/
theorem claim_C10_zero_size_skip_witness :
    (stream_upload_file c9state ⟨"work/cache/e.vdb", some "e.vdb"⟩ true (some 0)
        (fun _ => .resp 200)).1.uploadedFiles
      = insert "work/cache/e.vdb" c9state.uploadedFiles ∧
    (stream_upload_file c9state ⟨"work/cache/e.vdb", some "e.vdb"⟩ true (some 0)
        (fun _ => .resp 200)).1.queuedFiles
      = c9state.queuedFiles.erase "work/cache/e.vdb" ∧
    (stream_upload_file c9state ⟨"work/cache/e.vdb", some "e.vdb"⟩ true (some 0)
        (fun _ => .resp 200)).1.stats = c9state.stats ∧
    (stream_upload_file c9state ⟨"work/cache/e.vdb", some "e.vdb"⟩ true (some 0)
        (fun _ => .resp 200)).1.failedFiles = c9state.failedFiles ∧
    (stream_upload_file c9state ⟨"work/cache/e.vdb", some "e.vdb"⟩ true (some 0)
        (fun _ => .resp 200)).1.pendingUrlFiles = c9state.pendingUrlFiles ∧
    (stream_upload_file c9state ⟨"work/cache/e.vdb", some "e.vdb"⟩ true (some 0)
        (fun _ => .resp 200)).2 = [] ∧
    (∀ (ex : Bool) (sr : Option Nat) (oc : Nat → PutOutcome),
      stream_upload_file (stream_upload_file c9state
          ⟨"work/cache/e.vdb", some "e.vdb"⟩ true (some 0)
          (fun _ => .resp 200)).1 ⟨"work/cache/e.vdb", some "e.vdb"⟩ ex sr oc =
        ({ (stream_upload_file c9state ⟨"work/cache/e.vdb", some "e.vdb"⟩ true
              (some 0) (fun _ => .resp 200)).1 with
             queuedFiles := (stream_upload_file c9state
               ⟨"work/cache/e.vdb", some "e.vdb"⟩ true (some 0)
               (fun _ => .resp 200)).1.queuedFiles.erase "work/cache/e.vdb" }, [])) :=
  claim_C10_zero_size_skip c9state ⟨"work/cache/e.vdb", some "e.vdb"⟩
    (fun _ => .resp 200) (by decide)

end CachePipeline
